import Mathlib

/-!
Verification development for the VoiceLink peer-to-peer voice-call library
(`voicelink-integration.js`, `database-schema.sql`,
`supabase/functions/voicelink-signaling/index.ts`).

The JavaScript client is embedded as a two-client transition system: one
`Session` per client (the mutable fields of the `VoiceLink` class instance),
one shared relay database (`users` busy/online flags, `rooms`, one `calls`
row slot, `signaling` rows, `call_recordings` rows).  Every event handler of
the class is translated as an atomic state transformer, matching the
serialized event-loop execution model of the client.  The ghost field
`statusWrites` records every value the system writes to the `call_status`
column of the current `calls` row (the insert and each matching update);
the ghost flag `incomingDelivered` records whether the realtime INSERT
notification for the current row has been delivered to its receiver.

Scope notes, orthogonal to all properties proved here: relay inserts,
updates and deletes are modelled as always succeeding (their JS `catch`
blocks only log); recording upload after call end, timers, DOM rendering
and audio playback have no model-visible state; the model keeps the single
current `calls` row, since every handler guards its row accesses by
`currentCallId` and rows of earlier calls are only ever overwritten with
`ended`, which the proved edge relation admits from every status.
-/

/-- The values admitted by the `call_status` column of the `calls` table
(`database-schema.sql` line 33), together with `connected`, which the
natural-language data model lists as a Call status but the schema does not. -/
inductive DbStatus
  | calling
  | ringing
  | accepted
  | connected
  | declined
  | busy
  | missed
  | ended
  deriving DecidableEq, Repr

/-- The CHECK constraint on `calls.call_status`
(`database-schema.sql` line 33): the literal list of admitted values. -/
def schemaAllowed : DbStatus → Bool
  | DbStatus.calling => true
  | DbStatus.ringing => true
  | DbStatus.accepted => true
  | DbStatus.declined => true
  | DbStatus.ended => true
  | DbStatus.missed => true
  | DbStatus.busy => true
  | DbStatus.connected => false

/-- The values the client ever assigns to its local `this.callStatus` field:
`idle` (constructor, `cleanup`), `calling` (`initiateCall`), `ringing`
(`handleIncomingCall`, `handleCallStatusUpdate`), `accepted` (`acceptCall`,
`handleCallStatusUpdate`). -/
inductive LocalStatus
  | idle
  | calling
  | ringing
  | accepted
  deriving DecidableEq, Repr

/-- The two participants of the modelled call pair. -/
inductive Who
  | alice
  | bob
  deriving DecidableEq, Repr

def Who.other : Who → Who
  | Who.alice => Who.bob
  | Who.bob => Who.alice

def username : Who → String
  | Who.alice => "alice"
  | Who.bob => "bob"

/-- A row of the `rooms` table: `user1`/`user2` are stored sorted. -/
structure RoomRow where
  id : Nat
  user1 : String
  user2 : String
  deriving DecidableEq, Repr

/-- The `rooms` table plus the id generator. -/
structure RoomsDB where
  rows : List RoomRow
  nextId : Nat
  deriving DecidableEq, Repr

/-- A kernel-reducible decision procedure for `<` on `String`: the default
instance recurses on byte iterators and does not reduce inside the kernel,
which would block the evaluation of concrete execution traces below.  The
order itself is unchanged (lexicographic on the character list). -/
instance stringDecLt (a b : String) : Decidable (a < b) :=
  decidable_of_iff (a.data < b.data) String.lt_iff_toList_lt.symm

/-- The SQL function `get_or_create_room(user_a, user_b)`
(`database-schema.sql` lines 163-192): sort the two usernames, look the
sorted pair up, insert a fresh row only when none exists, return the id. -/
def get_or_create_room (db : RoomsDB) (user_a user_b : String) :
    Nat × RoomsDB :=
  let sorted : String × String :=
    if user_a < user_b then (user_a, user_b) else (user_b, user_a)
  match db.rows.find? (fun r => r.user1 = sorted.1 && r.user2 = sorted.2) with
  | some r => (r.id, db)
  | none =>
      (db.nextId,
        { rows := db.rows ++ [⟨db.nextId, sorted.1, sorted.2⟩],
          nextId := db.nextId + 1 })

/-- A row of the `calls` table (the fields the client reads or writes). -/
structure CallRow where
  id : Nat
  room_id : Nat
  caller_username : String
  receiver_username : String
  call_status : DbStatus
  duration : Nat
  deriving DecidableEq, Repr

/-- A row of the `signaling` table. -/
structure SignalRow where
  call_id : Nat
  sender_username : String
  receiver_username : String
  signal_type : String
  deriving DecidableEq, Repr

/-- A row of the `call_recordings` table (the fields `startCallRecording`
inserts). -/
structure RecordingRow where
  call_id : Nat
  storage_path : String
  recording_status : String
  deriving DecidableEq, Repr

/-- The mutable per-client fields of the `VoiceLink` class that the modelled
handlers read or write, plus the list of surfaced `showNotification`
messages. -/
structure Session where
  callStatus : LocalStatus
  currentCallId : Option Nat
  currentRoomId : Option Nat
  isInitiator : Bool
  reconnectAttempts : Nat
  callStartTime : Option Nat
  hasPC : Bool
  notes : List String
  deriving DecidableEq, Repr

/-- `this.maxReconnectAttempts` (constructor, line 27). -/
def maxReconnectAttempts : Nat := 5

def initSession : Session :=
  { callStatus := LocalStatus.idle
    currentCallId := none
    currentRoomId := none
    isInitiator := false
    reconnectAttempts := 0
    callStartTime := none
    hasPC := false
    notes := [] }

/-- The combined state of the two clients and the relay store. -/
structure World where
  a : Session
  b : Session
  busyA : Bool
  busyB : Bool
  onlineA : Bool
  onlineB : Bool
  rooms : RoomsDB
  callCtr : Nat
  call : Option CallRow
  incomingDelivered : Bool
  signals : List SignalRow
  recordings : List RecordingRow
  statusWrites : List DbStatus
  deriving DecidableEq, Repr

def sessOf (w : World) : Who → Session
  | Who.alice => w.a
  | Who.bob => w.b

def setSess (w : World) (who : Who) (s : Session) : World :=
  match who with
  | Who.alice => { w with a := s }
  | Who.bob => { w with b := s }

def busyOf (w : World) : Who → Bool
  | Who.alice => w.busyA
  | Who.bob => w.busyB

def onlineOf (w : World) : Who → Bool
  | Who.alice => w.onlineA
  | Who.bob => w.onlineB

/-- `updateUserStatus(isOnline, isBusy)` (lines 951-964): update the local
user's `is_online` and `is_busy` flags. -/
def updateUserStatus (w : World) (who : Who) (isOnline isBusy : Bool) :
    World :=
  match who with
  | Who.alice => { w with onlineA := isOnline, busyA := isBusy }
  | Who.bob => { w with onlineB := isOnline, busyB := isBusy }

def addNote (w : World) (who : Who) (m : String) : World :=
  setSess w who { sessOf w who with notes := (sessOf w who).notes ++ [m] }

/-- The state right after both clients ran `init`/`registerUser` (upsert of
`is_online := true, is_busy := false`); the online flags are left as
parameters so that states where a party has gone offline (staleness sweep,
closed client) are covered. -/
def initWorld (onlA onlB : Bool) : World :=
  { a := initSession
    b := initSession
    busyA := false
    busyB := false
    onlineA := onlA
    onlineB := onlB
    rooms := { rows := [], nextId := 0 }
    callCtr := 0
    call := none
    incomingDelivered := true
    signals := []
    recordings := []
    statusWrites := [] }

/-! ## Handler embeddings

Each `async` method of the class becomes one atomic state transformer, in
the source's statement order.  String literals used by the source are bound
to named constants first.
-/

def offerType : String := "offer"

def answerType : String := "answer"

def candidateType : String := "ice-candidate"

def recordingStatusNew : String := "recording"

def msgOffline : String := "User is offline"

def msgBusy : String := "User is busy"

def msgDeclined : String := "Call declined"

def msgMicFail : String := "Failed to access microphone"

def msgConnFail : String := "Connection failed"

def msgInitFail : String := "Failed to initiate call"

/-- `updateCallStatus(status)` (lines 937-946): update `calls` set
`call_status = status` where `id = this.currentCallId`.  The ghost trace
records the write when the row matches. -/
def updateCallStatus (w : World) (who : Who) (st : DbStatus) : World :=
  match (sessOf w who).currentCallId, w.call with
  | some cid, some c =>
      if c.id = cid then
        { w with call := some { c with call_status := st },
                 statusWrites := w.statusWrites ++ [st] }
      else w
  | _, _ => w

/-- `sendSignal(type, data)` (lines 541-555): insert a `signaling` row for
the current call addressed to the configured friend. -/
def sendSignal (w : World) (who : Who) (stype : String) : World :=
  match (sessOf w who).currentCallId with
  | some cid =>
      { w with signals :=
          w.signals ++ [⟨cid, username who, username who.other, stype⟩] }
  | none => w

/-- `cleanup()` (lines 1117-1175): close the peer connection, reset every
session field to its idle value (`callStatus := 'idle'`, ids cleared,
`reconnectAttempts := 0`, ...) and run `updateUserStatus(true, false)`. -/
def cleanup (w : World) (who : Who) : World :=
  let w1 := setSess w who
    { sessOf w who with
        callStatus := LocalStatus.idle
        currentCallId := none
        currentRoomId := none
        isInitiator := false
        reconnectAttempts := 0
        callStartTime := none
        hasPC := false }
  updateUserStatus w1 who true false

/-- `endCall()` (lines 865-906): when a call id is current, update the
`calls` row to `ended` with the elapsed duration, delete the `signaling`
rows of that call id, then `cleanup()`. -/
def endCall (w : World) (who : Who) (now : Nat) : World :=
  match (sessOf w who).currentCallId with
  | none => cleanup w who
  | some cid =>
      let dur : Nat :=
        match (sessOf w who).callStartTime with
        | some t => (now - t) / 1000
        | none => 0
      let w1 :=
        match w.call with
        | some c =>
            if c.id = cid then
              { w with call := some { c with call_status := DbStatus.ended,
                                             duration := dur },
                       statusWrites := w.statusWrites ++ [DbStatus.ended] }
            else w
        | none => w
      let w2 := { w1 with
        signals := w1.signals.filter (fun s => s.call_id ≠ cid) }
      cleanup w2 who

/-- `setupWebRTC()` (lines 471-536): acquire the microphone and build the
peer connection; when the media acquisition fails, surface the error and
`endCall()`; when this side is the initiator, create and send the offer. -/
def setupWebRTC (w : World) (who : Who) (mediaOk : Bool) (now : Nat) :
    World :=
  if mediaOk then
    let w1 := setSess w who { sessOf w who with hasPC := true }
    if (sessOf w1 who).isInitiator then sendSignal w1 who offerType else w1
  else
    endCall (addNote w who msgMicFail) who now

/-- `checkFriendStatus()` (lines 377-392): read the friend's
`is_online`/`is_busy` flags. -/
def checkFriendStatus (w : World) (who : Who) : Bool × Bool :=
  (onlineOf w who.other, busyOf w who.other)

/-- `initiateCall()` (lines 397-466): return at once unless idle; check the
friend's status and stop with a surfaced error when offline or busy;
otherwise set self busy, get or create the room, insert the `calls` row
with status `calling`, adopt the call locally and run `setupWebRTC`. -/
def initiateCall (w : World) (who : Who) (mediaOk : Bool) (now : Nat) :
    World :=
  if (sessOf w who).callStatus ≠ LocalStatus.idle then w
  else
    let friend := checkFriendStatus w who
    if friend.1 = false then addNote w who msgOffline
    else if friend.2 = true then addNote w who msgBusy
    else
      let w1 := updateUserStatus w who true true
      let room := get_or_create_room w1.rooms (username who)
        (username who.other)
      let w2 := { w1 with rooms := room.2 }
      let cid := w2.callCtr
      let w3 := { w2 with
        call := some
          { id := cid
            room_id := room.1
            caller_username := username who
            receiver_username := username who.other
            call_status := DbStatus.calling
            duration := 0 }
        callCtr := cid + 1
        statusWrites := [DbStatus.calling]
        incomingDelivered := false }
      let w4 := setSess w3 who
        { sessOf w3 who with
            currentCallId := some cid
            currentRoomId := some room.1
            isInitiator := true
            callStatus := LocalStatus.calling }
      setupWebRTC w4 who mediaOk now

/-- `handleIncomingCall(call)` (lines 582-616): adopt the incoming row's
call id, room id and initiator flag, then either reply busy (when not
idle) or move to ringing and write `ringing` to the row. -/
def handleIncomingCall (w : World) (who : Who) (c : CallRow) : World :=
  let w1 := setSess w who
    { sessOf w who with
        currentCallId := some c.id
        currentRoomId := some c.room_id
        isInitiator := false }
  let w2 := { w1 with incomingDelivered := true }
  if (sessOf w2 who).callStatus ≠ LocalStatus.idle then
    updateCallStatus w2 who DbStatus.busy
  else
    let w3 := setSess w2 who
      { sessOf w2 who with callStatus := LocalStatus.ringing }
    updateCallStatus w3 who DbStatus.ringing

/-- `acceptCall()` (lines 621-649): set self busy, write `accepted` to the
`calls` row, set the local status to accepted and run `setupWebRTC`. -/
def acceptCall (w : World) (who : Who) (mediaOk : Bool) (now : Nat) :
    World :=
  let w1 := updateUserStatus w who true true
  let w2 := updateCallStatus w1 who DbStatus.accepted
  let w3 := setSess w2 who
    { sessOf w2 who with callStatus := LocalStatus.accepted }
  setupWebRTC w3 who mediaOk now

/-- `declineCall()` (lines 654-670): write `declined` to the `calls` row,
then `cleanup()`. -/
def declineCall (w : World) (who : Who) : World :=
  cleanup (updateCallStatus w who DbStatus.declined) who

/-- `handleCallStatusUpdate(call)` (lines 675-692): ignore rows other than
the current call; mirror `ringing` (initiator only) and `accepted` into
the local status; on `declined`, `busy` or `ended` surface the message and
`endCall()`. -/
def handleCallStatusUpdate (w : World) (who : Who) (c : CallRow)
    (now : Nat) : World :=
  if some c.id ≠ (sessOf w who).currentCallId then w
  else
    match c.call_status with
    | DbStatus.ringing =>
        if (sessOf w who).isInitiator then
          setSess w who { sessOf w who with callStatus := LocalStatus.ringing }
        else w
    | DbStatus.accepted =>
        setSess w who { sessOf w who with callStatus := LocalStatus.accepted }
    | DbStatus.declined => endCall (addNote w who msgDeclined) who now
    | DbStatus.busy => endCall (addNote w who msgBusy) who now
    | DbStatus.ended => endCall w who now
    | _ => w

/-- `onCallConnected()` (lines 697-717): record the start time and start
recording (`startCallRecording`, lines 722-767, inserts the
`call_recordings` row with status `recording`) and the duration timer.
The call status, local or stored, is not touched here. -/
def onCallConnected (w : World) (who : Who) (now : Nat) : World :=
  let w1 := setSess w who { sessOf w who with callStartTime := some now }
  match (sessOf w1 who).currentCallId with
  | some cid =>
      { w1 with recordings := w1.recordings ++
          [⟨cid, "recordings/" ++ toString cid ++ ".webm",
            recordingStatusNew⟩] }
  | none => w1

/-- `handleConnectionFailure()` (lines 911-922): below the bound, increment
`reconnectAttempts` and re-run `setupWebRTC`; at the bound, surface the
connection error and `endCall()`. -/
def handleConnectionFailure (w : World) (who : Who) (mediaOk : Bool)
    (now : Nat) : World :=
  if (sessOf w who).reconnectAttempts < maxReconnectAttempts then
    let w1 := setSess w who
      { sessOf w who with
          reconnectAttempts := (sessOf w who).reconnectAttempts + 1 }
    setupWebRTC w1 who mediaOk now
  else
    endCall (addNote w who msgConnFail) who now

/-- `handleDisconnection()` (lines 927-932): only while the local status is
`accepted` (the value it still holds during a connected call), run
`handleConnectionFailure`. -/
def handleDisconnection (w : World) (who : Who) (mediaOk : Bool)
    (now : Nat) : World :=
  if (sessOf w who).callStatus = LocalStatus.accepted then
    handleConnectionFailure w who mediaOk now
  else w

/-- `handleSignal(signal)` (lines 560-577): ignore signals of other calls;
an offer received by the non-initiator with a live peer connection is
answered with an `answer` signal; answers and candidates only touch the
transport object. -/
def handleSignal (w : World) (who : Who) (sg : SignalRow) : World :=
  if some sg.call_id ≠ (sessOf w who).currentCallId then w
  else if sg.signal_type = offerType && (sessOf w who).isInitiator = false
      && (sessOf w who).hasPC then
    sendSignal w who answerType
  else w

/-- One tick of the `startHeartbeat` interval (lines 1059-1063):
`updateUserStatus(true, this.callStatus !== 'idle')`. -/
def heartbeat (w : World) (who : Who) : World :=
  updateUserStatus w who true
    (decide ((sessOf w who).callStatus ≠ LocalStatus.idle))

/-- `handleCleanupSignals` of the edge function
(`voicelink-signaling/index.ts` lines 109-128): delete all `signaling`
rows of the given call id; the delete succeeds also when nothing matches
(`ok` mirrors the non-error response). -/
def handleCleanupSignals (rows : List SignalRow) (cid : Nat) :
    List SignalRow × Bool :=
  (rows.filter (fun s => s.call_id ≠ cid), true)

/-! ## Events and the transition system

Realtime notifications, UI actions and transport callbacks of either
client, interleaved in any order.  UI events carry the enabling condition
of the button that triggers them (`acceptCall`/`declineCall` are reachable
only from the incoming-call overlay, shown while the callee rings);
transport callbacks require a live peer connection; a realtime INSERT is
delivered at most once, an UPDATE observation reads the row's current
state and may occur at any time, which covers delayed, repeated and lost
notifications.
-/

inductive Ev
  | initiate (who : Who) (mediaOk : Bool) (now : Nat)
  | incoming (who : Who)
  | statusObs (who : Who) (now : Nat)
  | accept (who : Who) (mediaOk : Bool) (now : Nat)
  | decline (who : Who)
  | endBtn (who : Who) (now : Nat)
  | connected (who : Who) (now : Nat)
  | failed (who : Who) (mediaOk : Bool) (now : Nat)
  | disconnected (who : Who) (mediaOk : Bool) (now : Nat)
  | signalObs (who : Who) (i : Nat)
  | tick (who : Who)
  | unload (who : Who)
  deriving DecidableEq, Repr

def applyEv (w : World) : Ev → World
  | Ev.initiate who mediaOk now => initiateCall w who mediaOk now
  | Ev.incoming who =>
      match w.call with
      | some c =>
          if c.receiver_username = username who
              && c.caller_username ≠ username who
              && w.incomingDelivered = false then
            handleIncomingCall w who c
          else w
      | none => w
  | Ev.statusObs who now =>
      match w.call with
      | some c => handleCallStatusUpdate w who c now
      | none => w
  | Ev.accept who mediaOk now =>
      if (sessOf w who).callStatus = LocalStatus.ringing
          && (sessOf w who).isInitiator = false then
        acceptCall w who mediaOk now
      else w
  | Ev.decline who =>
      if (sessOf w who).callStatus = LocalStatus.ringing
          && (sessOf w who).isInitiator = false then
        declineCall w who
      else w
  | Ev.endBtn who now => endCall w who now
  | Ev.connected who now =>
      if (sessOf w who).hasPC then onCallConnected w who now else w
  | Ev.failed who mediaOk now =>
      if (sessOf w who).hasPC then
        handleConnectionFailure w who mediaOk now
      else w
  | Ev.disconnected who mediaOk now =>
      if (sessOf w who).hasPC then
        handleDisconnection w who mediaOk now
      else w
  | Ev.signalObs who i =>
      match w.signals[i]? with
      | some sg =>
          if sg.receiver_username = username who then handleSignal w who sg
          else w
      | none => w
  | Ev.tick who => heartbeat w who
  | Ev.unload who => cleanup w who

def run (w : World) (evs : List Ev) : World :=
  evs.foldl applyEv w

/-! ## The transition table of the specification and the edge relation the
code realizes -/

/-- The transition table of the Call Session Coordinator as the
specification states it, restricted to the authoritative `call_status`
values: the chain `calling → ringing → accepted → connected → ended`, the
side exits `calling|ringing → declined|busy|missed`, and `local end()`
from every non-idle state to `ended`. -/
def specEdge : DbStatus → DbStatus → Bool
  | DbStatus.calling, DbStatus.ringing => true
  | DbStatus.calling, DbStatus.declined => true
  | DbStatus.calling, DbStatus.busy => true
  | DbStatus.calling, DbStatus.missed => true
  | DbStatus.calling, DbStatus.ended => true
  | DbStatus.ringing, DbStatus.accepted => true
  | DbStatus.ringing, DbStatus.declined => true
  | DbStatus.ringing, DbStatus.busy => true
  | DbStatus.ringing, DbStatus.missed => true
  | DbStatus.ringing, DbStatus.ended => true
  | DbStatus.accepted, DbStatus.connected => true
  | DbStatus.accepted, DbStatus.ended => true
  | DbStatus.connected, DbStatus.ended => true
  | _, _ => false

/-- The write edges the code actually realizes: the table's edges, the
end-call handler overwriting also a terminal status with `ended`, and the
writes a handler performs on a row whose status the peer has meanwhile
overwritten (a delayed or lost realtime notification): after `ended` a
late `handleIncomingCall`, `acceptCall` or `declineCall` may still write,
and after `busy` a stale-ringing callee may still accept or decline. -/
def allowedEdge (s t : DbStatus) : Bool :=
  specEdge s t
  || (s == DbStatus.declined && t == DbStatus.ended)
  || (s == DbStatus.busy &&
      (t == DbStatus.ended || t == DbStatus.accepted
        || t == DbStatus.declined))
  || (s == DbStatus.ended &&
      (t == DbStatus.ended || t == DbStatus.ringing || t == DbStatus.busy
        || t == DbStatus.accepted || t == DbStatus.declined))

def edgeChain (edge : DbStatus → DbStatus → Bool) :
    List DbStatus → Bool
  | [] => true
  | [_] => true
  | s :: t :: r => edge s t && edgeChain edge (t :: r)

/-- A write trace is a path for `edge` when it is empty or starts at
`calling` and every adjacent pair is an `edge`. -/
def pathFrom (edge : DbStatus → DbStatus → Bool)
    (l : List DbStatus) : Bool :=
  match l with
  | [] => true
  | s :: _ => (s == DbStatus.calling) && edgeChain edge l

def specWritesOK (l : List DbStatus) : Bool := pathFrom specEdge l

def writesOK (l : List DbStatus) : Bool := pathFrom allowedEdge l

/-! ## Basic facts about the state helpers -/

theorem sessOf_setSess (w : World) (who who2 : Who) (s : Session) :
    sessOf (setSess w who s) who2 = if who2 = who then s else sessOf w who2 := by
  cases who <;> cases who2 <;> simp [sessOf, setSess]

theorem sessOf_setSess_self (w : World) (who : Who) (s : Session) :
    sessOf (setSess w who s) who = s := by
  cases who <;> rfl

theorem sessOf_updateUserStatus (w : World) (who who2 : Who)
    (o bq : Bool) : sessOf (updateUserStatus w who o bq) who2 = sessOf w who2 := by
  cases who <;> cases who2 <;> rfl

theorem call_updateUserStatus (w : World) (who : Who) (o bq : Bool) :
    (updateUserStatus w who o bq).call = w.call := by
  cases who <;> rfl

theorem writes_updateUserStatus (w : World) (who : Who) (o bq : Bool) :
    (updateUserStatus w who o bq).statusWrites = w.statusWrites := by
  cases who <;> rfl

theorem busyOf_updateUserStatus (w : World) (who : Who) (o bq : Bool) :
    busyOf (updateUserStatus w who o bq) who = bq := by
  cases who <;> rfl

theorem call_setSess (w : World) (who : Who) (s : Session) :
    (setSess w who s).call = w.call := by
  cases who <;> rfl

theorem writes_setSess (w : World) (who : Who) (s : Session) :
    (setSess w who s).statusWrites = w.statusWrites := by
  cases who <;> rfl

theorem busyOf_setSess (w : World) (who : Who) (s : Session) (who2 : Who) :
    busyOf (setSess w who s) who2 = busyOf w who2 := by
  cases who <;> cases who2 <;> rfl

theorem sessOf_updateCallStatus (w : World) (who : Who) (st : DbStatus)
    (who2 : Who) : sessOf (updateCallStatus w who st) who2 = sessOf w who2 := by
  unfold updateCallStatus
  rcases (sessOf w who).currentCallId with _ | cid <;>
    rcases w.call with _ | c <;> simp
  split <;> rfl

theorem busyOf_updateCallStatus (w : World) (who : Who) (st : DbStatus)
    (who2 : Who) : busyOf (updateCallStatus w who st) who2 = busyOf w who2 := by
  unfold updateCallStatus
  rcases (sessOf w who).currentCallId with _ | cid <;>
    rcases w.call with _ | c <;> simp
  split <;> rfl

theorem sessOf_sendSignal (w : World) (who : Who) (t : String)
    (who2 : Who) : sessOf (sendSignal w who t) who2 = sessOf w who2 := by
  unfold sendSignal
  rcases (sessOf w who).currentCallId with _ | cid <;> rfl

theorem busyOf_sendSignal (w : World) (who : Who) (t : String)
    (who2 : Who) : busyOf (sendSignal w who t) who2 = busyOf w who2 := by
  unfold sendSignal
  rcases (sessOf w who).currentCallId with _ | cid <;> cases who2 <;> rfl

theorem call_sendSignal (w : World) (who : Who) (t : String) :
    (sendSignal w who t).call = w.call := by
  unfold sendSignal
  rcases (sessOf w who).currentCallId with _ | cid <;> rfl

theorem writes_sendSignal (w : World) (who : Who) (t : String) :
    (sendSignal w who t).statusWrites = w.statusWrites := by
  unfold sendSignal
  rcases (sessOf w who).currentCallId with _ | cid <;> rfl

theorem sessOf_addNote (w : World) (who : Who) (m : String) (who2 : Who) :
    sessOf (addNote w who m) who2 =
      if who2 = who then
        { sessOf w who with notes := (sessOf w who).notes ++ [m] }
      else sessOf w who2 := by
  unfold addNote
  exact sessOf_setSess w who who2 _

theorem call_addNote (w : World) (who : Who) (m : String) :
    (addNote w who m).call = w.call := call_setSess w who _

theorem writes_addNote (w : World) (who : Who) (m : String) :
    (addNote w who m).statusWrites = w.statusWrites := writes_setSess w who _

theorem busyOf_addNote (w : World) (who : Who) (m : String) (who2 : Who) :
    busyOf (addNote w who m) who2 = busyOf w who2 := busyOf_setSess w who _ who2

/-- The session fields `cleanup` leaves on its own client: an idle session
with the busy flag released. -/
theorem cleanup_sess_self (w : World) (who : Who) :
    (sessOf (cleanup w who) who).callStatus = LocalStatus.idle
    ∧ (sessOf (cleanup w who) who).currentCallId = none
    ∧ (sessOf (cleanup w who) who).reconnectAttempts = 0
    ∧ busyOf (cleanup w who) who = false := by
  cases who <;> simp [cleanup, updateUserStatus, setSess, sessOf, busyOf]

theorem endCall_sess_self (w : World) (who : Who) (now : Nat) :
    (sessOf (endCall w who now) who).callStatus = LocalStatus.idle
    ∧ (sessOf (endCall w who now) who).currentCallId = none
    ∧ (sessOf (endCall w who now) who).reconnectAttempts = 0
    ∧ busyOf (endCall w who now) who = false := by
  unfold endCall
  rcases (sessOf w who).currentCallId with _ | cid
  · exact cleanup_sess_self w who
  · exact cleanup_sess_self _ who

/-! ## C7: purge of signaling rows -/

/-- C7: purge of Signal rows for a call_id is idempotent: for every row set
and call_id, running `handleCleanupSignals` twice gives the same table as
running it once, the result holds zero rows of that call_id, and the second
run is a successful no-op (no error). -/
theorem handleCleanupSignals_idempotent (rows : List SignalRow) (cid : Nat) :
    handleCleanupSignals (handleCleanupSignals rows cid).1 cid
        = handleCleanupSignals rows cid
    ∧ (handleCleanupSignals rows cid).1.countP
        (fun s => s.call_id == cid) = 0
    ∧ (handleCleanupSignals rows cid).2 = true := by
  refine ⟨?_, ?_, rfl⟩
  · unfold handleCleanupSignals
    simp [List.filter_filter]
  · unfold handleCleanupSignals
    simp only [List.countP_eq_zero]
    intro s hs
    rw [List.mem_filter] at hs
    simpa using hs.2

/-! ## C8: room creation -/

/-- Two `rooms` rows describe the same unordered user pair. -/
def samePair (r r2 : RoomRow) : Prop :=
  (r.user1 = r2.user1 ∧ r.user2 = r2.user2)
  ∨ (r.user1 = r2.user2 ∧ r.user2 = r2.user1)

/-- The `rooms` table invariant: each row stores its pair sorted, and no
two distinct rows describe the same unordered user pair. -/
def RoomsInv (db : RoomsDB) : Prop :=
  (∀ r ∈ db.rows, r.user1 ≤ r.user2)
  ∧ (∀ r ∈ db.rows, ∀ r2 ∈ db.rows, samePair r r2 → r = r2)

theorem sortPair_comm (a b : String) :
    (if a < b then (a, b) else (b, a))
      = (if b < a then (b, a) else (a, b)) := by
  rcases lt_trichotomy a b with h | h | h
  · rw [if_pos h, if_neg (asymm h)]
  · subst h
    simp
  · rw [if_neg (asymm h), if_pos h]

theorem get_or_create_room_comm (db : RoomsDB) (x y : String) :
    get_or_create_room db x y = get_or_create_room db y x := by
  unfold get_or_create_room
  rw [sortPair_comm]

theorem get_or_create_room_idem (db : RoomsDB) (x y : String) :
    get_or_create_room (get_or_create_room db x y).2 x y
      = get_or_create_room db x y := by
  unfold get_or_create_room
  rcases hf : db.rows.find?
      (fun r => r.user1 = (if x < y then (x, y) else (y, x)).1
        && r.user2 = (if x < y then (x, y) else (y, x)).2) with _ | r
  · simp only [hf]
    rw [List.find?_append, hf]
    simp
  · simp only [hf]

theorem samePair_symm {r r2 : RoomRow} (h : samePair r r2) : samePair r2 r := by
  rcases h with ⟨e1, e2⟩ | ⟨e1, e2⟩
  · exact Or.inl ⟨e1.symm, e2.symm⟩
  · exact Or.inr ⟨e2.symm, e1.symm⟩

theorem sortPair_le (x y : String) :
    (if x < y then (x, y) else (y, x)).1
      ≤ (if x < y then (x, y) else (y, x)).2 := by
  by_cases h : x < y
  · simp only [if_pos h]
    exact le_of_lt h
  · simp only [if_neg h]
    exact le_of_not_lt h

theorem get_or_create_room_inv (db : RoomsDB) (x y : String)
    (h : RoomsInv db) : RoomsInv (get_or_create_room db x y).2 := by
  have hle := sortPair_le x y
  unfold get_or_create_room
  rcases hf : db.rows.find?
      (fun r => r.user1 = (if x < y then (x, y) else (y, x)).1
        && r.user2 = (if x < y then (x, y) else (y, x)).2) with _ | r
  case some =>
    simp only [hf]
    exact h
  case none =>
    simp only [hf]
    rw [List.find?_eq_none] at hf
    have key : ∀ q ∈ db.rows,
        samePair q ⟨db.nextId, (if x < y then (x, y) else (y, x)).1,
          (if x < y then (x, y) else (y, x)).2⟩ → False := by
      intro q hq hsp
      have h1 := h.1 q hq
      have hpred := hf q hq
      rcases hsp with ⟨e1, e2⟩ | ⟨e1, e2⟩
      · simp only [] at e1 e2
        apply hpred
        rw [e1, e2]
        simp only [Bool.and_eq_true, decide_eq_true_eq]
        exact ⟨trivial, trivial⟩
      · simp only [] at e1 e2
        have heq : (if x < y then (x, y) else (y, x)).1
            = (if x < y then (x, y) else (y, x)).2 := by
          apply le_antisymm hle
          rw [← e1, ← e2]
          exact h1
        apply hpred
        rw [e1, e2, heq]
        simp only [Bool.and_eq_true, decide_eq_true_eq]
        exact ⟨trivial, trivial⟩
    refine ⟨?_, ?_⟩
    · intro q hq
      simp only [List.mem_append, List.mem_singleton] at hq
      rcases hq with hq | hq
      · exact h.1 q hq
      · subst hq
        exact hle
    · intro q hq q2 hq2 hsp
      simp only [List.mem_append, List.mem_singleton] at hq hq2
      rcases hq with hq | hq <;> rcases hq2 with hq2 | hq2
      · exact h.2 q hq q2 hq2 hsp
      · subst hq2
        exact absurd hsp (fun hsp2 => key q hq hsp2)
      · subst hq
        exact absurd (samePair_symm hsp) (fun hsp2 => key q2 hq2 hsp2)
      · rw [hq, hq2]

/-- C8: room creation is lazy, idempotent and symmetric in the user pair:
`get_or_create_room(a, b)` and `get_or_create_room(b, a)` return the same
room id (and the same table), a repeated call returns that id without
creating a second row, and the table invariant "at most one room per
unordered user pair" is preserved by every call. -/
theorem get_or_create_room_ok (db : RoomsDB) (x y : String)
    (hinv : RoomsInv db) :
    get_or_create_room db x y = get_or_create_room db y x
    ∧ get_or_create_room (get_or_create_room db x y).2 x y
        = get_or_create_room db x y
    ∧ RoomsInv (get_or_create_room db x y).2 :=
  ⟨get_or_create_room_comm db x y, get_or_create_room_idem db x y,
    get_or_create_room_inv db x y hinv⟩

/-- Witness for C8 at the empty table and the pair `bob`, `alice`. -/
theorem get_or_create_room_ok_witness :
    RoomsInv { rows := [], nextId := 0 }
    ∧ (get_or_create_room { rows := [], nextId := 0 }
        (username Who.bob) (username Who.alice)
      = get_or_create_room { rows := [], nextId := 0 }
        (username Who.alice) (username Who.bob)
    ∧ get_or_create_room
        (get_or_create_room { rows := [], nextId := 0 }
          (username Who.bob) (username Who.alice)).2
        (username Who.bob) (username Who.alice)
      = get_or_create_room { rows := [], nextId := 0 }
        (username Who.bob) (username Who.alice)
    ∧ RoomsInv (get_or_create_room { rows := [], nextId := 0 }
        (username Who.bob) (username Who.alice)).2) :=
  ⟨⟨by simp [RoomsInv], by simp [RoomsInv]⟩,
    get_or_create_room_ok { rows := [], nextId := 0 }
      (username Who.bob) (username Who.alice)
      ⟨by simp [RoomsInv], by simp [RoomsInv]⟩⟩

/-! ## C10: initiate while not idle is a no-op -/

/-- C10: calling `initiateCall()` while the local status is not `idle`
returns the state completely unchanged: no Call, Room or Signal record is
created, the busy flag is untouched and the session is untouched. -/
theorem initiateCall_nonidle_noop (w : World) (who : Who)
    (mediaOk : Bool) (now : Nat)
    (h : (sessOf w who).callStatus ≠ LocalStatus.idle) :
    initiateCall w who mediaOk now = w := by
  unfold initiateCall
  rw [if_pos h]

/-- Witness for C10: a caller whose session is already in `calling`. -/
theorem initiateCall_nonidle_noop_witness :
    (sessOf (run (initWorld true true) [Ev.initiate Who.alice true 0])
        Who.alice).callStatus ≠ LocalStatus.idle
    ∧ initiateCall (run (initWorld true true) [Ev.initiate Who.alice true 0])
        Who.alice true 5
      = run (initWorld true true) [Ev.initiate Who.alice true 0] :=
  ⟨by decide, initiateCall_nonidle_noop _ Who.alice true 5 (by decide)⟩

/-! ## C4: transport reports connected -/

/-- C4 (amended): for a call in local status `accepted`, when the
transport reports connected, recording is started (a `call_recordings` row
with status `recording` is inserted) and the duration clock is started
(`callStartTime` is set); the call's status — local field, `calls` row and
write trace — is left unchanged, and `connected` is not among the values
the schema's CHECK constraint admits for `calls.call_status`. -/
theorem onCallConnected_spec (w : World) (who : Who) (now cid : Nat)
    (h1 : (sessOf w who).callStatus = LocalStatus.accepted)
    (h2 : (sessOf w who).currentCallId = some cid) :
    (sessOf (onCallConnected w who now) who).callStatus
        = LocalStatus.accepted
    ∧ (onCallConnected w who now).call = w.call
    ∧ (onCallConnected w who now).statusWrites = w.statusWrites
    ∧ (onCallConnected w who now).recordings = w.recordings ++
        [⟨cid, "recordings/" ++ toString cid ++ ".webm",
          recordingStatusNew⟩]
    ∧ (sessOf (onCallConnected w who now) who).callStartTime = some now
    ∧ schemaAllowed DbStatus.connected = false := by
  cases who
  all_goals
    simp only [sessOf] at h1 h2
  all_goals
    simp [onCallConnected, sessOf, setSess, h1, h2, schemaAllowed]

/-- Witness for C4: the connected callee of a completed handshake. -/
theorem onCallConnected_spec_witness :
    ((sessOf (run (initWorld true true)
        [Ev.initiate Who.alice true 0, Ev.incoming Who.bob,
         Ev.accept Who.bob true 2]) Who.bob).callStatus
      = LocalStatus.accepted
    ∧ (sessOf (run (initWorld true true)
        [Ev.initiate Who.alice true 0, Ev.incoming Who.bob,
         Ev.accept Who.bob true 2]) Who.bob).currentCallId = some 0)
    ∧ (sessOf (onCallConnected (run (initWorld true true)
        [Ev.initiate Who.alice true 0, Ev.incoming Who.bob,
         Ev.accept Who.bob true 2]) Who.bob 7) Who.bob).callStatus
      = LocalStatus.accepted :=
  ⟨⟨by decide, by decide⟩,
    (onCallConnected_spec (run (initWorld true true)
        [Ev.initiate Who.alice true 0, Ev.incoming Who.bob,
         Ev.accept Who.bob true 2]) Who.bob 7 0
      (by decide) (by decide)).1⟩

/-- Counterexample to C4 as stated: after the full handshake the transport
of both parties reports connected, yet the `calls` row still holds
`accepted`, not `connected`; and `connected` is not even a value the
schema's CHECK on `calls.call_status` admits. -/
theorem c4_status_never_connected :
    (run (initWorld true true)
        [Ev.initiate Who.alice true 0, Ev.incoming Who.bob,
         Ev.accept Who.bob true 2, Ev.statusObs Who.alice 3,
         Ev.connected Who.alice 4, Ev.connected Who.bob 4]).call.map
        CallRow.call_status = some DbStatus.accepted
    ∧ schemaAllowed DbStatus.connected = false := by
  exact ⟨by decide, rfl⟩

/-! ## C5: incoming call while not idle -/

/-- C5 (amended): when an incoming call is observed while the local
session is not idle, the handler replies busy by setting the incoming
`calls` row's status to `busy` and leaves the local session status and
both busy flags unchanged — but it does not leave the rest of the session
state unchanged: it has already overwritten `currentCallId`,
`currentRoomId` and `isInitiator` with the incoming call's values before
the busy check runs. -/
theorem handleIncomingCall_nonidle_spec (w : World) (who : Who)
    (c : CallRow)
    (h1 : (sessOf w who).callStatus ≠ LocalStatus.idle)
    (h2 : w.call = some c) :
    (handleIncomingCall w who c).call
        = some { c with call_status := DbStatus.busy }
    ∧ (handleIncomingCall w who c).statusWrites
        = w.statusWrites ++ [DbStatus.busy]
    ∧ (sessOf (handleIncomingCall w who c) who).callStatus
        = (sessOf w who).callStatus
    ∧ (sessOf (handleIncomingCall w who c) who).currentCallId = some c.id
    ∧ (sessOf (handleIncomingCall w who c) who).currentRoomId
        = some c.room_id
    ∧ (sessOf (handleIncomingCall w who c) who).isInitiator = false
    ∧ (handleIncomingCall w who c).busyA = w.busyA
    ∧ (handleIncomingCall w who c).busyB = w.busyB := by
  cases who
  all_goals
    simp only [sessOf] at h1
  all_goals
    simp [handleIncomingCall, updateCallStatus, sessOf, setSess, h1, h2]

/-- Witness for C5: a callee still ringing on an earlier call when a new
`calls` row is inserted. -/
theorem handleIncomingCall_nonidle_spec_witness :
    ((sessOf (run (initWorld true true)
        [Ev.initiate Who.alice true 0, Ev.incoming Who.bob,
         Ev.endBtn Who.alice 1, Ev.initiate Who.alice true 2])
        Who.bob).callStatus ≠ LocalStatus.idle
    ∧ (run (initWorld true true)
        [Ev.initiate Who.alice true 0, Ev.incoming Who.bob,
         Ev.endBtn Who.alice 1, Ev.initiate Who.alice true 2]).call
      = some { id := 1, room_id := 0,
               caller_username := username Who.alice,
               receiver_username := username Who.bob,
               call_status := DbStatus.calling, duration := 0 })
    ∧ (sessOf (handleIncomingCall (run (initWorld true true)
        [Ev.initiate Who.alice true 0, Ev.incoming Who.bob,
         Ev.endBtn Who.alice 1, Ev.initiate Who.alice true 2]) Who.bob
        { id := 1, room_id := 0,
          caller_username := username Who.alice,
          receiver_username := username Who.bob,
          call_status := DbStatus.calling, duration := 0 })
        Who.bob).isInitiator = false :=
  ⟨⟨by decide, by decide⟩,
    ((((((handleIncomingCall_nonidle_spec (run (initWorld true true)
        [Ev.initiate Who.alice true 0, Ev.incoming Who.bob,
         Ev.endBtn Who.alice 1, Ev.initiate Who.alice true 2]) Who.bob
        { id := 1, room_id := 0,
          caller_username := username Who.alice,
          receiver_username := username Who.bob,
          call_status := DbStatus.calling, duration := 0 }
        (by decide) (by decide)).2).2).2).2).2).1⟩

/-- Counterexample to C5 as stated: the busy reply does not leave the
local session state unchanged — the handler overwrites `currentCallId`
(here from the ongoing call 0 to the incoming call 1). -/
theorem c5_session_clobbered :
    (sessOf (run (initWorld true true)
        [Ev.initiate Who.alice true 0, Ev.incoming Who.bob,
         Ev.endBtn Who.alice 1, Ev.initiate Who.alice true 2])
        Who.bob).callStatus ≠ LocalStatus.idle
    ∧ (sessOf (run (initWorld true true)
        [Ev.initiate Who.alice true 0, Ev.incoming Who.bob,
         Ev.endBtn Who.alice 1, Ev.initiate Who.alice true 2])
        Who.bob).currentCallId = some 0
    ∧ (sessOf (applyEv (run (initWorld true true)
        [Ev.initiate Who.alice true 0, Ev.incoming Who.bob,
         Ev.endBtn Who.alice 1, Ev.initiate Who.alice true 2])
        (Ev.incoming Who.bob)) Who.bob).currentCallId = some 1 := by
  exact ⟨by decide, by decide, by decide⟩

/-! ## C6: target offline at initiation -/

/-- C6 (amended): when the target user is offline at initiation, no Call
record is created at all (in particular none with status `missed`), no
Signal rows are created, the caller's busy flag is untouched (so it stays
released) and the only effect is the surfaced offline error. -/
theorem initiateCall_offline_spec (w : World) (who : Who)
    (mediaOk : Bool) (now : Nat)
    (h1 : (sessOf w who).callStatus = LocalStatus.idle)
    (h2 : onlineOf w who.other = false) :
    initiateCall w who mediaOk now = addNote w who msgOffline
    ∧ (initiateCall w who mediaOk now).call = w.call
    ∧ (initiateCall w who mediaOk now).signals = w.signals
    ∧ (initiateCall w who mediaOk now).statusWrites = w.statusWrites
    ∧ busyOf (initiateCall w who mediaOk now) who = busyOf w who := by
  have hmain : initiateCall w who mediaOk now = addNote w who msgOffline := by
    unfold initiateCall checkFriendStatus
    rw [if_neg (by rw [h1]; simp), if_pos h2]
  refine ⟨hmain, ?_, ?_, ?_, ?_⟩ <;> rw [hmain]
  · exact call_addNote w who _
  · unfold addNote
    cases who <;> rfl
  · exact writes_addNote w who _
  · exact busyOf_addNote w who _ who

/-- Witness for C6: alice idle, bob offline. -/
theorem initiateCall_offline_spec_witness :
    ((sessOf (initWorld true false) Who.alice).callStatus
        = LocalStatus.idle
    ∧ onlineOf (initWorld true false) Who.alice.other = false)
    ∧ initiateCall (initWorld true false) Who.alice true 0
        = addNote (initWorld true false) Who.alice msgOffline :=
  ⟨⟨by decide, by decide⟩,
    (initiateCall_offline_spec (initWorld true false) Who.alice true 0
      (by decide) (by decide)).1⟩

/-- Counterexample to C6 as stated: with the target offline, initiation
creates no `calls` row whatsoever — so no Call record with status `missed`
exists — and leaves the signal table empty and the caller not busy. -/
theorem c6_no_missed_row :
    (applyEv (initWorld true false) (Ev.initiate Who.alice true 0)).call
        = none
    ∧ (applyEv (initWorld true false)
        (Ev.initiate Who.alice true 0)).signals = []
    ∧ (applyEv (initWorld true false)
        (Ev.initiate Who.alice true 0)).busyA = false := by
  exact ⟨by decide, by decide, by decide⟩

/-! ## Session-shape lemmas for the teardown helpers -/

/-- The session transform `cleanup` applies to its own client's fields. -/
def idleReset (s : Session) : Session :=
  { s with
      callStatus := LocalStatus.idle
      currentCallId := none
      currentRoomId := none
      isInitiator := false
      reconnectAttempts := 0
      callStartTime := none
      hasPC := false }

theorem sessOf_cleanup (w : World) (who who2 : Who) :
    sessOf (cleanup w who) who2 =
      if who2 = who then idleReset (sessOf w who) else sessOf w who2 := by
  cases who <;> cases who2 <;>
    simp [cleanup, updateUserStatus, setSess, sessOf, idleReset]

theorem busyOf_cleanup (w : World) (who who2 : Who) :
    busyOf (cleanup w who) who2 =
      if who2 = who then false else busyOf w who2 := by
  cases who <;> cases who2 <;>
    simp [cleanup, updateUserStatus, setSess, busyOf]

theorem sessOf_endCall (w : World) (who : Who) (now : Nat) (who2 : Who) :
    sessOf (endCall w who now) who2 =
      if who2 = who then idleReset (sessOf w who) else sessOf w who2 := by
  unfold endCall
  rcases (sessOf w who).currentCallId with _ | cid
  · exact sessOf_cleanup w who who2
  · rcases w.call with _ | c
    · rw [sessOf_cleanup]
      cases who <;> cases who2 <;> simp [sessOf, idleReset]
    · by_cases hid : c.id = cid <;>
        simp only [hid, if_pos, if_neg] <;>
        rw [sessOf_cleanup] <;>
        cases who <;> cases who2 <;> simp [sessOf, idleReset]

theorem busyOf_endCall (w : World) (who : Who) (now : Nat) (who2 : Who) :
    busyOf (endCall w who now) who2 =
      if who2 = who then false else busyOf w who2 := by
  unfold endCall
  rcases (sessOf w who).currentCallId with _ | cid
  · exact busyOf_cleanup w who who2
  · rcases w.call with _ | c
    · rw [busyOf_cleanup]
      cases who <;> cases who2 <;> simp [busyOf]
    · by_cases hid : c.id = cid <;>
        simp only [hid, if_pos, if_neg] <;>
        rw [busyOf_cleanup] <;>
        cases who <;> cases who2 <;> simp [busyOf]

/-! ## How a step may change the reconnection counter

Every handler either keeps `reconnectAttempts`, increments it under the
`< maxReconnectAttempts` guard of `handleConnectionFailure`, or zeroes it
as part of `cleanup`'s full teardown to the idle session. -/

def AttemptsOk (w w' : World) (who2 : Who) : Prop :=
  (sessOf w' who2).reconnectAttempts = (sessOf w who2).reconnectAttempts
  ∨ ((sessOf w who2).reconnectAttempts < maxReconnectAttempts
      ∧ (sessOf w' who2).reconnectAttempts
          = (sessOf w who2).reconnectAttempts + 1)
  ∨ ((sessOf w' who2).callStatus = LocalStatus.idle
      ∧ (sessOf w' who2).currentCallId = none
      ∧ (sessOf w' who2).reconnectAttempts = 0)

theorem attOk_of_attEq {w w' : World} {who2 : Who}
    (h : (sessOf w' who2).reconnectAttempts
      = (sessOf w who2).reconnectAttempts) : AttemptsOk w w' who2 :=
  Or.inl h

theorem attOk_refl (w : World) (who2 : Who) : AttemptsOk w w who2 :=
  Or.inl rfl

theorem attOk_trans_eq {w w1 w' : World} {who2 : Who}
    (h1 : (sessOf w1 who2).reconnectAttempts
      = (sessOf w who2).reconnectAttempts)
    (h2 : AttemptsOk w1 w' who2) : AttemptsOk w w' who2 := by
  rcases h2 with h | ⟨hb, h⟩ | h
  · exact Or.inl (by rw [h, h1])
  · exact Or.inr (Or.inl ⟨by rw [← h1]; exact hb, by rw [h, h1]⟩)
  · exact Or.inr (Or.inr h)

theorem attOk_cleanup (w : World) (who who2 : Who) :
    AttemptsOk w (cleanup w who) who2 := by
  rw [AttemptsOk, sessOf_cleanup]
  by_cases h : who2 = who
  · rw [if_pos h]
    exact Or.inr (Or.inr ⟨rfl, rfl, rfl⟩)
  · rw [if_neg h]
    exact Or.inl rfl

theorem attOk_endCall (w : World) (who : Who) (now : Nat) (who2 : Who) :
    AttemptsOk w (endCall w who now) who2 := by
  rw [AttemptsOk, sessOf_endCall]
  by_cases h : who2 = who
  · rw [if_pos h]
    exact Or.inr (Or.inr ⟨rfl, rfl, rfl⟩)
  · rw [if_neg h]
    exact Or.inl rfl

theorem attEq_addNote (w : World) (who : Who) (m : String) (who2 : Who) :
    (sessOf (addNote w who m) who2).reconnectAttempts
      = (sessOf w who2).reconnectAttempts := by
  rw [sessOf_addNote]
  by_cases h : who2 = who
  · rw [if_pos h, h]
  · rw [if_neg h]

theorem attOk_setupWebRTC (w : World) (who : Who) (mediaOk : Bool)
    (now : Nat) (who2 : Who) :
    AttemptsOk w (setupWebRTC w who mediaOk now) who2 := by
  unfold setupWebRTC
  by_cases hm : mediaOk
  · rw [if_pos hm]
    by_cases hi : (sessOf (setSess w who
        { sessOf w who with hasPC := true }) who).isInitiator
    · rw [if_pos hi]
      apply attOk_of_attEq
      rw [sessOf_sendSignal, sessOf_setSess]
      by_cases h : who2 = who
      · rw [if_pos h, h]
      · rw [if_neg h]
    · rw [if_neg hi]
      apply attOk_of_attEq
      rw [sessOf_setSess]
      by_cases h : who2 = who
      · rw [if_pos h, h]
      · rw [if_neg h]
  · rw [if_neg hm]
    exact attOk_trans_eq (attEq_addNote w who msgMicFail who2)
      (attOk_endCall (addNote w who msgMicFail) who now who2)

theorem attEq_updateUserStatus (w : World) (who : Who) (o bq : Bool)
    (who2 : Who) :
    (sessOf (updateUserStatus w who o bq) who2).reconnectAttempts
      = (sessOf w who2).reconnectAttempts := by
  rw [sessOf_updateUserStatus]

theorem attEq_updateCallStatus (w : World) (who : Who) (st : DbStatus)
    (who2 : Who) :
    (sessOf (updateCallStatus w who st) who2).reconnectAttempts
      = (sessOf w who2).reconnectAttempts := by
  rw [sessOf_updateCallStatus]

theorem attOk_initiateCall (w : World) (who : Who) (mediaOk : Bool)
    (now : Nat) (who2 : Who) :
    AttemptsOk w (initiateCall w who mediaOk now) who2 := by
  unfold initiateCall
  by_cases h1 : (sessOf w who).callStatus ≠ LocalStatus.idle
  · rw [if_pos h1]
    exact attOk_refl w who2
  · rw [if_neg h1]
    by_cases h2 : (checkFriendStatus w who).1 = false
    · rw [if_pos h2]
      exact attOk_of_attEq (attEq_addNote w who msgOffline who2)
    · rw [if_neg h2]
      by_cases h3 : (checkFriendStatus w who).2 = true
      · rw [if_pos h3]
        exact attOk_of_attEq (attEq_addNote w who msgBusy who2)
      · rw [if_neg h3]
        refine attOk_trans_eq ?_ (attOk_setupWebRTC _ who mediaOk now who2)
        rw [sessOf_setSess]
        by_cases h : who2 = who
        · rw [if_pos h, h]
          cases who <;>
            simp [sessOf, setSess, updateUserStatus]
        · rw [if_neg h]
          cases who <;> cases who2 <;>
            simp [sessOf, setSess, updateUserStatus]

/-- `setupWebRTC` either keeps the reconnection counter (media acquired) or
tears the session down to idle through `endCall`/`cleanup` (media denied). -/
theorem attFlat_setupWebRTC (w : World) (who : Who) (mediaOk : Bool)
    (now : Nat) (who2 : Who) :
    (sessOf (setupWebRTC w who mediaOk now) who2).reconnectAttempts
        = (sessOf w who2).reconnectAttempts
    ∨ ((sessOf (setupWebRTC w who mediaOk now) who2).callStatus
          = LocalStatus.idle
        ∧ (sessOf (setupWebRTC w who mediaOk now) who2).currentCallId = none
        ∧ (sessOf (setupWebRTC w who mediaOk now) who2).reconnectAttempts
          = 0) := by
  unfold setupWebRTC
  by_cases hm : mediaOk
  · rw [if_pos hm]
    by_cases hi : (sessOf (setSess w who
        { sessOf w who with hasPC := true }) who).isInitiator
    · rw [if_pos hi]
      left
      rw [sessOf_sendSignal, sessOf_setSess]
      by_cases h : who2 = who
      · rw [if_pos h, h]
      · rw [if_neg h]
    · rw [if_neg hi]
      left
      rw [sessOf_setSess]
      by_cases h : who2 = who
      · rw [if_pos h, h]
      · rw [if_neg h]
  · rw [if_neg hm]
    rw [sessOf_endCall]
    by_cases h : who2 = who
    · rw [if_pos h]
      right
      exact ⟨rfl, rfl, rfl⟩
    · rw [if_neg h]
      left
      exact attEq_addNote w who msgMicFail who2

theorem attOk_handleIncomingCall (w : World) (who : Who) (c : CallRow)
    (who2 : Who) : AttemptsOk w (handleIncomingCall w who c) who2 := by
  unfold handleIncomingCall
  by_cases h : (sessOf { setSess w who
      { sessOf w who with
          currentCallId := some c.id
          currentRoomId := some c.room_id
          isInitiator := false } with incomingDelivered := true } who).callStatus
      ≠ LocalStatus.idle
  · rw [if_pos h]
    apply attOk_of_attEq
    rw [attEq_updateCallStatus]
    cases who <;> cases who2 <;> simp [sessOf, setSess]
  · rw [if_neg h]
    apply attOk_of_attEq
    rw [attEq_updateCallStatus, sessOf_setSess]
    by_cases h2 : who2 = who
    · rw [if_pos h2, h2]
      cases who <;> simp [sessOf, setSess]
    · rw [if_neg h2]
      cases who <;> cases who2 <;> simp [sessOf, setSess]

theorem attOk_acceptCall (w : World) (who : Who) (mediaOk : Bool)
    (now : Nat) (who2 : Who) :
    AttemptsOk w (acceptCall w who mediaOk now) who2 := by
  unfold acceptCall
  refine attOk_trans_eq ?_ (attOk_setupWebRTC _ who mediaOk now who2)
  rw [sessOf_setSess]
  by_cases h : who2 = who
  · rw [if_pos h, h]
    simp only []
    rw [attEq_updateCallStatus, attEq_updateUserStatus]
  · rw [if_neg h]
    rw [attEq_updateCallStatus, attEq_updateUserStatus]

theorem attOk_declineCall (w : World) (who who2 : Who) :
    AttemptsOk w (declineCall w who) who2 := by
  unfold declineCall
  exact attOk_trans_eq (attEq_updateCallStatus w who DbStatus.declined who2)
    (attOk_cleanup _ who who2)

theorem attOk_handleCallStatusUpdate (w : World) (who : Who) (c : CallRow)
    (now : Nat) (who2 : Who) :
    AttemptsOk w (handleCallStatusUpdate w who c now) who2 := by
  unfold handleCallStatusUpdate
  by_cases h : some c.id ≠ (sessOf w who).currentCallId
  · rw [if_pos h]
    exact attOk_refl w who2
  · rw [if_neg h]
    cases c.call_status
    · exact attOk_refl w who2
    · by_cases hi : (sessOf w who).isInitiator
      · rw [if_pos hi]
        apply attOk_of_attEq
        rw [sessOf_setSess]
        by_cases h2 : who2 = who
        · rw [if_pos h2, h2]
        · rw [if_neg h2]
      · rw [if_neg hi]
        exact attOk_refl w who2
    · apply attOk_of_attEq
      rw [sessOf_setSess]
      by_cases h2 : who2 = who
      · rw [if_pos h2, h2]
      · rw [if_neg h2]
    · exact attOk_refl w who2
    · exact attOk_trans_eq (attEq_addNote w who msgDeclined who2)
        (attOk_endCall _ who now who2)
    · exact attOk_trans_eq (attEq_addNote w who msgBusy who2)
        (attOk_endCall _ who now who2)
    · exact attOk_refl w who2
    · exact attOk_endCall w who now who2

theorem attOk_handleConnectionFailure (w : World) (who : Who)
    (mediaOk : Bool) (now : Nat) (who2 : Who) :
    AttemptsOk w (handleConnectionFailure w who mediaOk now) who2 := by
  unfold handleConnectionFailure
  by_cases h : (sessOf w who).reconnectAttempts < maxReconnectAttempts
  · rw [if_pos h]
    show AttemptsOk w (setupWebRTC (setSess w who
      { sessOf w who with
          reconnectAttempts := (sessOf w who).reconnectAttempts + 1 })
      who mediaOk now) who2
    rcases attFlat_setupWebRTC (setSess w who
        { sessOf w who with
            reconnectAttempts := (sessOf w who).reconnectAttempts + 1 })
        who mediaOk now who2 with he | hr
    · rw [sessOf_setSess] at he
      by_cases h2 : who2 = who
      · rw [if_pos h2] at he
        subst h2
        exact Or.inr (Or.inl ⟨h, he⟩)
      · rw [if_neg h2] at he
        exact Or.inl he
    · exact Or.inr (Or.inr hr)
  · rw [if_neg h]
    exact attOk_trans_eq (attEq_addNote w who msgConnFail who2)
      (attOk_endCall _ who now who2)

theorem attOk_handleDisconnection (w : World) (who : Who)
    (mediaOk : Bool) (now : Nat) (who2 : Who) :
    AttemptsOk w (handleDisconnection w who mediaOk now) who2 := by
  unfold handleDisconnection
  by_cases h : (sessOf w who).callStatus = LocalStatus.accepted
  · rw [if_pos h]
    exact attOk_handleConnectionFailure w who mediaOk now who2
  · rw [if_neg h]
    exact attOk_refl w who2

theorem attOk_handleSignal (w : World) (who : Who) (sg : SignalRow)
    (who2 : Who) : AttemptsOk w (handleSignal w who sg) who2 := by
  unfold handleSignal
  by_cases h : some sg.call_id ≠ (sessOf w who).currentCallId
  · rw [if_pos h]
    exact attOk_refl w who2
  · rw [if_neg h]
    by_cases h2 : sg.signal_type = offerType
        && (sessOf w who).isInitiator = false && (sessOf w who).hasPC
    · rw [if_pos h2]
      exact attOk_of_attEq (by rw [sessOf_sendSignal])
    · rw [if_neg h2]
      exact attOk_refl w who2

theorem attOk_heartbeat (w : World) (who who2 : Who) :
    AttemptsOk w (heartbeat w who) who2 := by
  unfold heartbeat
  exact attOk_of_attEq (attEq_updateUserStatus w who true _ who2)

theorem attEq_onCallConnected (w : World) (who : Who) (now : Nat)
    (who2 : Who) :
    (sessOf (onCallConnected w who now) who2).reconnectAttempts
      = (sessOf w who2).reconnectAttempts := by
  unfold onCallConnected
  dsimp only
  split <;> cases who <;> cases who2 <;> simp [sessOf, setSess]

/-- Any single event either keeps a client's reconnection counter,
increments it under the bound's guard, or zeroes it while tearing the
session down to idle. -/
theorem attOk_applyEv (w : World) (e : Ev) (who2 : Who) :
    AttemptsOk w (applyEv w e) who2 := by
  cases e with
  | initiate who mediaOk now =>
      exact attOk_initiateCall w who mediaOk now who2
  | incoming who =>
      simp only [applyEv]
      split
      · split
        · exact attOk_handleIncomingCall w who _ who2
        · exact attOk_refl w who2
      · exact attOk_refl w who2
  | statusObs who now =>
      simp only [applyEv]
      split
      · exact attOk_handleCallStatusUpdate w who _ now who2
      · exact attOk_refl w who2
  | accept who mediaOk now =>
      simp only [applyEv]
      split
      · exact attOk_acceptCall w who mediaOk now who2
      · exact attOk_refl w who2
  | decline who =>
      simp only [applyEv]
      split
      · exact attOk_declineCall w who who2
      · exact attOk_refl w who2
  | endBtn who now => exact attOk_endCall w who now who2
  | connected who now =>
      simp only [applyEv]
      split
      · exact attOk_of_attEq (attEq_onCallConnected w who now who2)
      · exact attOk_refl w who2
  | failed who mediaOk now =>
      simp only [applyEv]
      split
      · exact attOk_handleConnectionFailure w who mediaOk now who2
      · exact attOk_refl w who2
  | disconnected who mediaOk now =>
      simp only [applyEv]
      split
      · exact attOk_handleDisconnection w who mediaOk now who2
      · exact attOk_refl w who2
  | signalObs who i =>
      simp only [applyEv]
      split
      · split
        · exact attOk_handleSignal w who _ who2
        · exact attOk_refl w who2
      · exact attOk_refl w who2
  | tick who => exact attOk_heartbeat w who who2
  | unload who => exact attOk_cleanup w who who2

theorem call_cleanup (w : World) (who : Who) :
    (cleanup w who).call = w.call := by
  cases who <;> rfl

theorem attempts_le_applyEv (w : World) (e : Ev) (who : Who)
    (h : (sessOf w who).reconnectAttempts ≤ maxReconnectAttempts) :
    (sessOf (applyEv w e) who).reconnectAttempts ≤ maxReconnectAttempts := by
  rcases attOk_applyEv w e who with he | ⟨hb, he⟩ | he
  · rw [he]
    exact h
  · rw [he]
    exact hb
  · rw [he.2.2]
    exact Nat.zero_le _

theorem attempts_le_run (w : World) (evs : List Ev) (who : Who)
    (h : (sessOf w who).reconnectAttempts ≤ maxReconnectAttempts) :
    (sessOf (run w evs) who).reconnectAttempts ≤ maxReconnectAttempts := by
  induction evs generalizing w with
  | nil => exact h
  | cons e rest ih => exact ih (applyEv w e) (attempts_le_applyEv w e who h)

/-! ## C2: the reconnection bound -/

/-- C2: in every reachable state the reconnection counter of either client
never exceeds the bound of `maxReconnectAttempts = 5`; a transport failure
below the bound increments the counter by exactly one and re-runs the
negotiation handshake (`setupWebRTC`, which re-establishes the peer
connection); a transport failure at the bound tears the call down: the
session goes idle, the busy flag is released, the fatal connectivity error
is surfaced, and the current `calls` row is set to `ended`. -/
theorem reconnect_bound (onlA onlB : Bool) (evs : List Ev) (who : Who)
    (w : World) (mediaOk : Bool) (now : Nat) (c : CallRow) :
    (sessOf (run (initWorld onlA onlB) evs) who).reconnectAttempts
        ≤ maxReconnectAttempts
    ∧ ((sessOf w who).reconnectAttempts < maxReconnectAttempts →
        mediaOk = true →
        (sessOf (handleConnectionFailure w who mediaOk now)
            who).reconnectAttempts
          = (sessOf w who).reconnectAttempts + 1
        ∧ (sessOf (handleConnectionFailure w who mediaOk now) who).hasPC
          = true)
    ∧ (¬ (sessOf w who).reconnectAttempts < maxReconnectAttempts →
        (sessOf (handleConnectionFailure w who mediaOk now) who).callStatus
            = LocalStatus.idle
        ∧ busyOf (handleConnectionFailure w who mediaOk now) who = false
        ∧ (sessOf (handleConnectionFailure w who mediaOk now) who).notes
            = (sessOf w who).notes ++ [msgConnFail]
        ∧ (w.call = some c → (sessOf w who).currentCallId = some c.id →
            (handleConnectionFailure w who mediaOk now).call.map
              CallRow.call_status = some DbStatus.ended)) := by
  refine ⟨?_, ?_, ?_⟩
  · apply attempts_le_run
    cases who <;> simp [initWorld, sessOf, initSession]
  · intro hlt hm
    subst hm
    unfold handleConnectionFailure
    rw [if_pos hlt]
    unfold setupWebRTC
    rw [if_pos rfl]
    by_cases hi : (sessOf (setSess (setSess w who
        { sessOf w who with
            reconnectAttempts := (sessOf w who).reconnectAttempts + 1 }) who
        { sessOf (setSess w who
            { sessOf w who with
                reconnectAttempts := (sessOf w who).reconnectAttempts + 1 })
            who with hasPC := true }) who).isInitiator
    · rw [if_pos hi, sessOf_sendSignal, sessOf_setSess_self,
        sessOf_setSess_self]
      exact ⟨rfl, rfl⟩
    · rw [if_neg hi, sessOf_setSess_self, sessOf_setSess_self]
      exact ⟨rfl, rfl⟩
  · intro hge
    unfold handleConnectionFailure
    rw [if_neg hge]
    refine ⟨?_, ?_, ?_, ?_⟩
    · rw [sessOf_endCall, if_pos rfl]
      rfl
    · rw [busyOf_endCall, if_pos rfl]
    · rw [sessOf_endCall, if_pos rfl]
      show (sessOf (addNote w who msgConnFail) who).notes
        = (sessOf w who).notes ++ [msgConnFail]
      rw [sessOf_addNote, if_pos rfl]
    · intro hc hid
      unfold endCall
      rw [sessOf_addNote, if_pos rfl]
      simp only [hid]
      rw [call_cleanup]
      simp only [call_addNote, hc]
      simp

/-- Witness for C2: a connected call hit by transport failures — one
failure below the bound increments the counter, and the failure at the
bound (five attempts already spent) tears the call down with the error
surfaced and the row `ended`. -/
theorem reconnect_bound_witness :
    ((sessOf (run (initWorld true true)
        [Ev.initiate Who.alice true 0, Ev.incoming Who.bob,
         Ev.accept Who.bob true 2, Ev.statusObs Who.alice 3,
         Ev.failed Who.alice true 4, Ev.failed Who.alice true 5,
         Ev.failed Who.alice true 6, Ev.failed Who.alice true 7,
         Ev.failed Who.alice true 8]) Who.alice).reconnectAttempts
      = maxReconnectAttempts)
    ∧ (sessOf (run (initWorld true true)
        [Ev.initiate Who.alice true 0, Ev.incoming Who.bob,
         Ev.accept Who.bob true 2, Ev.statusObs Who.alice 3,
         Ev.failed Who.alice true 4, Ev.failed Who.alice true 5,
         Ev.failed Who.alice true 6, Ev.failed Who.alice true 7,
         Ev.failed Who.alice true 8]) Who.alice).reconnectAttempts
      ≤ maxReconnectAttempts
    ∧ (sessOf (handleConnectionFailure (run (initWorld true true)
        [Ev.initiate Who.alice true 0, Ev.incoming Who.bob,
         Ev.accept Who.bob true 2, Ev.statusObs Who.alice 3,
         Ev.failed Who.alice true 4, Ev.failed Who.alice true 5,
         Ev.failed Who.alice true 6, Ev.failed Who.alice true 7,
         Ev.failed Who.alice true 8]) Who.alice true 9)
        Who.alice).callStatus = LocalStatus.idle :=
  ⟨by decide,
    (reconnect_bound true true
      [Ev.initiate Who.alice true 0, Ev.incoming Who.bob,
       Ev.accept Who.bob true 2, Ev.statusObs Who.alice 3,
       Ev.failed Who.alice true 4, Ev.failed Who.alice true 5,
       Ev.failed Who.alice true 6, Ev.failed Who.alice true 7,
       Ev.failed Who.alice true 8] Who.alice
      (run (initWorld true true)
        [Ev.initiate Who.alice true 0, Ev.incoming Who.bob,
         Ev.accept Who.bob true 2, Ev.statusObs Who.alice 3,
         Ev.failed Who.alice true 4, Ev.failed Who.alice true 5,
         Ev.failed Who.alice true 6, Ev.failed Who.alice true 7,
         Ev.failed Who.alice true 8]) true 9
      { id := 0, room_id := 0, caller_username := username Who.alice,
        receiver_username := username Who.bob,
        call_status := DbStatus.accepted, duration := 0 }).1,
    ((reconnect_bound true true
      [Ev.initiate Who.alice true 0, Ev.incoming Who.bob,
       Ev.accept Who.bob true 2, Ev.statusObs Who.alice 3,
       Ev.failed Who.alice true 4, Ev.failed Who.alice true 5,
       Ev.failed Who.alice true 6, Ev.failed Who.alice true 7,
       Ev.failed Who.alice true 8] Who.alice
      (run (initWorld true true)
        [Ev.initiate Who.alice true 0, Ev.incoming Who.bob,
         Ev.accept Who.bob true 2, Ev.statusObs Who.alice 3,
         Ev.failed Who.alice true 4, Ev.failed Who.alice true 5,
         Ev.failed Who.alice true 6, Ev.failed Who.alice true 7,
         Ev.failed Who.alice true 8]) true 9
      { id := 0, room_id := 0, caller_username := username Who.alice,
        receiver_username := username Who.bob,
        call_status := DbStatus.accepted, duration := 0 }).2.2
      (by decide)).1⟩

/-! ## C9: when the reconnection counter is reset -/

/-- C9 (amended): the reconnection counter is reset to 0 only by the
`cleanup` teardown: any event that zeroes a client's nonzero counter
leaves that client's session idle with no current call; a fresh successful
connection (`onCallConnected`) does not touch the counter at all, while
`cleanup` always zeroes it. -/
theorem reconnect_reset_only_teardown (w : World) (e : Ev) (who : Who)
    (w2 : World) (now : Nat)
    (h0 : (sessOf (applyEv w e) who).reconnectAttempts = 0)
    (h1 : (sessOf w who).reconnectAttempts ≠ 0) :
    (sessOf (applyEv w e) who).callStatus = LocalStatus.idle
    ∧ (sessOf (applyEv w e) who).currentCallId = none
    ∧ (sessOf (onCallConnected w2 who now) who).reconnectAttempts
        = (sessOf w2 who).reconnectAttempts
    ∧ (sessOf (cleanup w2 who) who).reconnectAttempts = 0 := by
  have hside : (sessOf (onCallConnected w2 who now) who).reconnectAttempts
      = (sessOf w2 who).reconnectAttempts :=
    attEq_onCallConnected w2 who now who
  have hclean : (sessOf (cleanup w2 who) who).reconnectAttempts = 0 := by
    rw [sessOf_cleanup, if_pos rfl]
    rfl
  rcases attOk_applyEv w e who with he | ⟨hb, he⟩ | he
  · rw [he] at h0
    exact absurd h0 h1
  · rw [he] at h0
    exact absurd h0 (Nat.succ_ne_zero _)
  · exact ⟨he.1, he.2.1, hside, hclean⟩

/-- Witness for C9: a mid-retry caller (counter 1) pressing end — the
teardown zeroes the counter and leaves the session idle. -/
theorem reconnect_reset_only_teardown_witness :
    ((sessOf (applyEv (run (initWorld true true)
        [Ev.initiate Who.alice true 0, Ev.incoming Who.bob,
         Ev.accept Who.bob true 2, Ev.statusObs Who.alice 3,
         Ev.failed Who.alice true 4]) (Ev.endBtn Who.alice 9))
        Who.alice).reconnectAttempts = 0
    ∧ (sessOf (run (initWorld true true)
        [Ev.initiate Who.alice true 0, Ev.incoming Who.bob,
         Ev.accept Who.bob true 2, Ev.statusObs Who.alice 3,
         Ev.failed Who.alice true 4]) Who.alice).reconnectAttempts ≠ 0)
    ∧ (sessOf (applyEv (run (initWorld true true)
        [Ev.initiate Who.alice true 0, Ev.incoming Who.bob,
         Ev.accept Who.bob true 2, Ev.statusObs Who.alice 3,
         Ev.failed Who.alice true 4]) (Ev.endBtn Who.alice 9))
        Who.alice).callStatus = LocalStatus.idle :=
  ⟨⟨by decide, by decide⟩,
    (reconnect_reset_only_teardown (run (initWorld true true)
        [Ev.initiate Who.alice true 0, Ev.incoming Who.bob,
         Ev.accept Who.bob true 2, Ev.statusObs Who.alice 3,
         Ev.failed Who.alice true 4]) (Ev.endBtn Who.alice 9) Who.alice
        (initWorld true true) 0 (by decide) (by decide)).1⟩

/-- Counterexample to C9 as stated: the counter of a mid-retry caller is 1
and, without any fresh successful connection, plain call teardown
(`endCall` → `cleanup`) resets it to 0 — so the reset does not happen only
on a fresh successful connection, and it does happen at call teardown.
Conversely a successful connection (`onCallConnected`) leaves the counter
untouched at 1 instead of resetting it. -/
theorem c9_reset_at_teardown :
    (sessOf (run (initWorld true true)
        [Ev.initiate Who.alice true 0, Ev.incoming Who.bob,
         Ev.accept Who.bob true 2, Ev.statusObs Who.alice 3,
         Ev.failed Who.alice true 4]) Who.alice).reconnectAttempts = 1
    ∧ (sessOf (applyEv (run (initWorld true true)
        [Ev.initiate Who.alice true 0, Ev.incoming Who.bob,
         Ev.accept Who.bob true 2, Ev.statusObs Who.alice 3,
         Ev.failed Who.alice true 4]) (Ev.endBtn Who.alice 9))
        Who.alice).reconnectAttempts = 0
    ∧ (sessOf (applyEv (run (initWorld true true)
        [Ev.initiate Who.alice true 0, Ev.incoming Who.bob,
         Ev.accept Who.bob true 2, Ev.statusObs Who.alice 3,
         Ev.failed Who.alice true 4]) (Ev.connected Who.alice 10))
        Who.alice).reconnectAttempts = 1 := by
  exact ⟨by decide, by decide, by decide⟩

/-! ## How a step may change the pair (local status, busy flag)

Every handler either leaves a client's `callStatus` and busy flag both
unchanged, leaves the client idle with the busy flag released (the
`cleanup` teardown and the idle heartbeat), or leaves the client in a
non-idle status. -/

def SBOk (w w' : World) (who2 : Who) : Prop :=
  (busyOf w' who2 = busyOf w who2
    ∧ (sessOf w' who2).callStatus = (sessOf w who2).callStatus)
  ∨ ((sessOf w' who2).callStatus = LocalStatus.idle
      ∧ busyOf w' who2 = false)
  ∨ (sessOf w' who2).callStatus ≠ LocalStatus.idle

theorem sbOk_refl (w : World) (who2 : Who) : SBOk w w who2 :=
  Or.inl ⟨rfl, rfl⟩

theorem sbOk_trans_eq {w w1 w' : World} {who2 : Who}
    (hb : busyOf w1 who2 = busyOf w who2)
    (hs : (sessOf w1 who2).callStatus = (sessOf w who2).callStatus)
    (h : SBOk w1 w' who2) : SBOk w w' who2 := by
  rcases h with ⟨h1, h2⟩ | h | h
  · exact Or.inl ⟨by rw [h1, hb], by rw [h2, hs]⟩
  · exact Or.inr (Or.inl h)
  · exact Or.inr (Or.inr h)

theorem sbOk_cleanup (w : World) (who who2 : Who) :
    SBOk w (cleanup w who) who2 := by
  rw [SBOk, sessOf_cleanup, busyOf_cleanup]
  by_cases h : who2 = who
  · rw [if_pos h, if_pos h]
    exact Or.inr (Or.inl ⟨rfl, rfl⟩)
  · rw [if_neg h, if_neg h]
    exact Or.inl ⟨rfl, rfl⟩

theorem sbOk_endCall (w : World) (who : Who) (now : Nat) (who2 : Who) :
    SBOk w (endCall w who now) who2 := by
  rw [SBOk, sessOf_endCall, busyOf_endCall]
  by_cases h : who2 = who
  · rw [if_pos h, if_pos h]
    exact Or.inr (Or.inl ⟨rfl, rfl⟩)
  · rw [if_neg h, if_neg h]
    exact Or.inl ⟨rfl, rfl⟩

theorem sbEq_addNote (w : World) (who : Who) (m : String) (who2 : Who) :
    busyOf (addNote w who m) who2 = busyOf w who2
    ∧ (sessOf (addNote w who m) who2).callStatus
      = (sessOf w who2).callStatus := by
  refine ⟨busyOf_addNote w who m who2, ?_⟩
  rw [sessOf_addNote]
  by_cases h : who2 = who
  · rw [if_pos h, h]
  · rw [if_neg h]

theorem sbOk_setupWebRTC (w : World) (who : Who) (mediaOk : Bool)
    (now : Nat) (who2 : Who) :
    SBOk w (setupWebRTC w who mediaOk now) who2 := by
  unfold setupWebRTC
  by_cases hm : mediaOk
  · rw [if_pos hm]
    by_cases hi : (sessOf (setSess w who
        { sessOf w who with hasPC := true }) who).isInitiator
    · rw [if_pos hi]
      refine Or.inl ⟨?_, ?_⟩
      · rw [busyOf_sendSignal, busyOf_setSess]
      · rw [sessOf_sendSignal, sessOf_setSess]
        by_cases h : who2 = who
        · rw [if_pos h, h]
        · rw [if_neg h]
    · rw [if_neg hi]
      refine Or.inl ⟨?_, ?_⟩
      · rw [busyOf_setSess]
      · rw [sessOf_setSess]
        by_cases h : who2 = who
        · rw [if_pos h, h]
        · rw [if_neg h]
  · rw [if_neg hm]
    exact sbOk_trans_eq (sbEq_addNote w who msgMicFail who2).1
      (sbEq_addNote w who msgMicFail who2).2
      (sbOk_endCall (addNote w who msgMicFail) who now who2)

theorem sb_setupWebRTC_self (w : World) (who : Who) (mediaOk : Bool)
    (now : Nat) :
    ((sessOf (setupWebRTC w who mediaOk now) who).callStatus
        = (sessOf w who).callStatus
      ∧ busyOf (setupWebRTC w who mediaOk now) who = busyOf w who)
    ∨ ((sessOf (setupWebRTC w who mediaOk now) who).callStatus
        = LocalStatus.idle
      ∧ busyOf (setupWebRTC w who mediaOk now) who = false) := by
  unfold setupWebRTC
  by_cases hm : mediaOk
  · rw [if_pos hm]
    by_cases hi : (sessOf (setSess w who
        { sessOf w who with hasPC := true }) who).isInitiator
    · rw [if_pos hi]
      left
      rw [sessOf_sendSignal, busyOf_sendSignal, sessOf_setSess_self,
        busyOf_setSess]
      exact ⟨rfl, rfl⟩
    · rw [if_neg hi]
      left
      rw [sessOf_setSess_self, busyOf_setSess]
      exact ⟨rfl, rfl⟩
  · rw [if_neg hm]
    right
    rw [sessOf_endCall, busyOf_endCall, if_pos rfl, if_pos rfl]
    exact ⟨rfl, rfl⟩

/-- After a handler has put its own client into a non-idle status, running
`setupWebRTC` keeps the non-idle/torn-down shape for everyone. -/
theorem sbOk_after_nonidle (w w4 : World) (who who2 : Who)
    (mediaOk : Bool) (now : Nat)
    (hst : (sessOf w4 who).callStatus ≠ LocalStatus.idle)
    (hbusy2 : who2 ≠ who → busyOf w4 who2 = busyOf w who2)
    (hst2 : who2 ≠ who → (sessOf w4 who2).callStatus
      = (sessOf w who2).callStatus) :
    SBOk w (setupWebRTC w4 who mediaOk now) who2 := by
  by_cases h : who2 = who
  · subst h
    rcases sb_setupWebRTC_self w4 who2 mediaOk now with ⟨hs, hb⟩ | ⟨hs, hb⟩
    · exact Or.inr (Or.inr (by rw [hs]; exact hst))
    · exact Or.inr (Or.inl ⟨hs, hb⟩)
  · exact sbOk_trans_eq (hbusy2 h) (hst2 h)
      (sbOk_setupWebRTC w4 who mediaOk now who2)

theorem sbOk_initiateCall (w : World) (who : Who) (mediaOk : Bool)
    (now : Nat) (who2 : Who) :
    SBOk w (initiateCall w who mediaOk now) who2 := by
  unfold initiateCall
  by_cases h1 : (sessOf w who).callStatus ≠ LocalStatus.idle
  · rw [if_pos h1]
    exact sbOk_refl w who2
  · rw [if_neg h1]
    by_cases h2 : (checkFriendStatus w who).1 = false
    · rw [if_pos h2]
      exact Or.inl ⟨(sbEq_addNote w who msgOffline who2).1,
        (sbEq_addNote w who msgOffline who2).2⟩
    · rw [if_neg h2]
      by_cases h3 : (checkFriendStatus w who).2 = true
      · rw [if_pos h3]
        exact Or.inl ⟨(sbEq_addNote w who msgBusy who2).1,
          (sbEq_addNote w who msgBusy who2).2⟩
      · rw [if_neg h3]
        apply sbOk_after_nonidle w _ who who2 mediaOk now
        · rw [sessOf_setSess_self]
          simp
        · intro h
          cases who <;> cases who2 <;>
            simp_all [busyOf, setSess, updateUserStatus]
        · intro h
          cases who <;> cases who2 <;>
            simp_all [sessOf, setSess, updateUserStatus]

theorem sbEq_updateCallStatus (w : World) (who : Who) (st : DbStatus)
    (who2 : Who) :
    busyOf (updateCallStatus w who st) who2 = busyOf w who2
    ∧ (sessOf (updateCallStatus w who st) who2).callStatus
      = (sessOf w who2).callStatus := by
  refine ⟨busyOf_updateCallStatus w who st who2, ?_⟩
  rw [sessOf_updateCallStatus]

theorem sbOk_handleIncomingCall (w : World) (who : Who) (c : CallRow)
    (who2 : Who) : SBOk w (handleIncomingCall w who c) who2 := by
  unfold handleIncomingCall
  by_cases h : (sessOf { setSess w who
      { sessOf w who with
          currentCallId := some c.id
          currentRoomId := some c.room_id
          isInitiator := false } with incomingDelivered := true } who).callStatus
      ≠ LocalStatus.idle
  · rw [if_pos h]
    refine Or.inl ⟨?_, ?_⟩
    · rw [busyOf_updateCallStatus]
      cases who <;> cases who2 <;> simp [busyOf, setSess]
    · rw [sessOf_updateCallStatus]
      cases who <;> cases who2 <;> simp [sessOf, setSess]
  · rw [if_neg h]
    by_cases h2 : who2 = who
    · subst h2
      refine Or.inr (Or.inr ?_)
      rw [(sbEq_updateCallStatus _ who2 DbStatus.ringing who2).2,
        sessOf_setSess_self]
      simp
    · refine Or.inl ⟨?_, ?_⟩
      · rw [busyOf_updateCallStatus]
        cases who <;> cases who2 <;> simp_all [busyOf, setSess]
      · rw [sessOf_updateCallStatus]
        cases who <;> cases who2 <;> simp_all [sessOf, setSess]

theorem sbOk_acceptCall (w : World) (who : Who) (mediaOk : Bool)
    (now : Nat) (who2 : Who) :
    SBOk w (acceptCall w who mediaOk now) who2 := by
  unfold acceptCall
  apply sbOk_after_nonidle w _ who who2 mediaOk now
  · rw [sessOf_setSess_self]
    simp
  · intro h
    rw [busyOf_setSess, busyOf_updateCallStatus]
    cases who <;> cases who2 <;> simp_all [busyOf, updateUserStatus]
  · intro h
    rw [sessOf_setSess, if_neg h, sessOf_updateCallStatus,
      sessOf_updateUserStatus]

theorem sbOk_declineCall (w : World) (who who2 : Who) :
    SBOk w (declineCall w who) who2 := by
  unfold declineCall
  exact sbOk_trans_eq (sbEq_updateCallStatus w who DbStatus.declined who2).1
    (sbEq_updateCallStatus w who DbStatus.declined who2).2
    (sbOk_cleanup _ who who2)

theorem sbOk_handleCallStatusUpdate (w : World) (who : Who) (c : CallRow)
    (now : Nat) (who2 : Who) :
    SBOk w (handleCallStatusUpdate w who c now) who2 := by
  unfold handleCallStatusUpdate
  by_cases h : some c.id ≠ (sessOf w who).currentCallId
  · rw [if_pos h]
    exact sbOk_refl w who2
  · rw [if_neg h]
    cases c.call_status
    · exact sbOk_refl w who2
    · by_cases hi : (sessOf w who).isInitiator
      · rw [if_pos hi]
        by_cases h2 : who2 = who
        · subst h2
          refine Or.inr (Or.inr ?_)
          rw [sessOf_setSess_self]
          simp
        · refine Or.inl ⟨?_, ?_⟩
          · rw [busyOf_setSess]
          · rw [sessOf_setSess, if_neg h2]
      · rw [if_neg hi]
        exact sbOk_refl w who2
    · by_cases h2 : who2 = who
      · subst h2
        refine Or.inr (Or.inr ?_)
        rw [sessOf_setSess_self]
        simp
      · refine Or.inl ⟨?_, ?_⟩
        · rw [busyOf_setSess]
        · rw [sessOf_setSess, if_neg h2]
    · exact sbOk_refl w who2
    · exact sbOk_trans_eq (sbEq_addNote w who msgDeclined who2).1
        (sbEq_addNote w who msgDeclined who2).2
        (sbOk_endCall _ who now who2)
    · exact sbOk_trans_eq (sbEq_addNote w who msgBusy who2).1
        (sbEq_addNote w who msgBusy who2).2
        (sbOk_endCall _ who now who2)
    · exact sbOk_refl w who2
    · exact sbOk_endCall w who now who2

theorem sbOk_handleConnectionFailure (w : World) (who : Who)
    (mediaOk : Bool) (now : Nat) (who2 : Who) :
    SBOk w (handleConnectionFailure w who mediaOk now) who2 := by
  unfold handleConnectionFailure
  by_cases h : (sessOf w who).reconnectAttempts < maxReconnectAttempts
  · rw [if_pos h]
    show SBOk w (setupWebRTC (setSess w who
      { sessOf w who with
          reconnectAttempts := (sessOf w who).reconnectAttempts + 1 })
      who mediaOk now) who2
    refine sbOk_trans_eq ?_ ?_ (sbOk_setupWebRTC _ who mediaOk now who2)
    · rw [busyOf_setSess]
    · rw [sessOf_setSess]
      by_cases h2 : who2 = who
      · rw [if_pos h2, h2]
      · rw [if_neg h2]
  · rw [if_neg h]
    exact sbOk_trans_eq (sbEq_addNote w who msgConnFail who2).1
      (sbEq_addNote w who msgConnFail who2).2
      (sbOk_endCall _ who now who2)

theorem sbOk_handleDisconnection (w : World) (who : Who)
    (mediaOk : Bool) (now : Nat) (who2 : Who) :
    SBOk w (handleDisconnection w who mediaOk now) who2 := by
  unfold handleDisconnection
  by_cases h : (sessOf w who).callStatus = LocalStatus.accepted
  · rw [if_pos h]
    exact sbOk_handleConnectionFailure w who mediaOk now who2
  · rw [if_neg h]
    exact sbOk_refl w who2

theorem sbOk_handleSignal (w : World) (who : Who) (sg : SignalRow)
    (who2 : Who) : SBOk w (handleSignal w who sg) who2 := by
  unfold handleSignal
  by_cases h : some sg.call_id ≠ (sessOf w who).currentCallId
  · rw [if_pos h]
    exact sbOk_refl w who2
  · rw [if_neg h]
    by_cases h2 : sg.signal_type = offerType
        && (sessOf w who).isInitiator = false && (sessOf w who).hasPC
    · rw [if_pos h2]
      exact Or.inl ⟨busyOf_sendSignal w who answerType who2,
        by rw [sessOf_sendSignal]⟩
    · rw [if_neg h2]
      exact sbOk_refl w who2

theorem sbOk_heartbeat (w : World) (who who2 : Who) :
    SBOk w (heartbeat w who) who2 := by
  unfold heartbeat
  by_cases h2 : who2 = who
  · subst h2
    by_cases h : (sessOf w who2).callStatus = LocalStatus.idle
    · refine Or.inr (Or.inl ⟨?_, ?_⟩)
      · rw [sessOf_updateUserStatus]
        exact h
      · rw [busyOf_updateUserStatus]
        simp [h]
    · refine Or.inr (Or.inr ?_)
      rw [sessOf_updateUserStatus]
      exact h
  · refine Or.inl ⟨?_, ?_⟩
    · cases who <;> cases who2 <;> simp_all [busyOf, updateUserStatus]
    · rw [sessOf_updateUserStatus]

theorem sbEq_onCallConnected (w : World) (who : Who) (now : Nat)
    (who2 : Who) :
    busyOf (onCallConnected w who now) who2 = busyOf w who2
    ∧ (sessOf (onCallConnected w who now) who2).callStatus
      = (sessOf w who2).callStatus := by
  unfold onCallConnected
  dsimp only
  constructor
  · split <;> cases who <;> cases who2 <;> simp [busyOf, setSess]
  · split <;> cases who <;> cases who2 <;> simp [sessOf, setSess]

/-- Any single event leaves a client's (status, busy) pair unchanged,
or leaves it idle and not busy, or leaves it non-idle. -/
theorem sbOk_applyEv (w : World) (e : Ev) (who2 : Who) :
    SBOk w (applyEv w e) who2 := by
  cases e with
  | initiate who mediaOk now =>
      exact sbOk_initiateCall w who mediaOk now who2
  | incoming who =>
      simp only [applyEv]
      split
      · split
        · exact sbOk_handleIncomingCall w who _ who2
        · exact sbOk_refl w who2
      · exact sbOk_refl w who2
  | statusObs who now =>
      simp only [applyEv]
      split
      · exact sbOk_handleCallStatusUpdate w who _ now who2
      · exact sbOk_refl w who2
  | accept who mediaOk now =>
      simp only [applyEv]
      split
      · exact sbOk_acceptCall w who mediaOk now who2
      · exact sbOk_refl w who2
  | decline who =>
      simp only [applyEv]
      split
      · exact sbOk_declineCall w who who2
      · exact sbOk_refl w who2
  | endBtn who now => exact sbOk_endCall w who now who2
  | connected who now =>
      simp only [applyEv]
      split
      · exact Or.inl ⟨(sbEq_onCallConnected w who now who2).1,
          (sbEq_onCallConnected w who now who2).2⟩
      · exact sbOk_refl w who2
  | failed who mediaOk now =>
      simp only [applyEv]
      split
      · exact sbOk_handleConnectionFailure w who mediaOk now who2
      · exact sbOk_refl w who2
  | disconnected who mediaOk now =>
      simp only [applyEv]
      split
      · exact sbOk_handleDisconnection w who mediaOk now who2
      · exact sbOk_refl w who2
  | signalObs who i =>
      simp only [applyEv]
      split
      · split
        · exact sbOk_handleSignal w who _ who2
        · exact sbOk_refl w who2
      · exact sbOk_refl w who2
  | tick who => exact sbOk_heartbeat w who who2
  | unload who => exact sbOk_cleanup w who who2

/-! ## C3: fatal outcomes release the busy flag -/

/-- "An idle client is not busy" at one client. -/
def IdleNotBusyAt (w : World) (who : Who) : Prop :=
  (sessOf w who).callStatus = LocalStatus.idle → busyOf w who = false

theorem idleNotBusy_applyEv (w : World) (e : Ev) (who : Who)
    (h : IdleNotBusyAt w who) : IdleNotBusyAt (applyEv w e) who := by
  intro hs
  rcases sbOk_applyEv w e who with ⟨hb, hst⟩ | ⟨_, hb⟩ | hne
  · rw [hb]
    exact h (by rw [← hst]; exact hs)
  · exact hb
  · exact absurd hs hne

theorem idleNotBusy_run (w : World) (evs : List Ev) (who : Who)
    (h : IdleNotBusyAt w who) : IdleNotBusyAt (run w evs) who := by
  induction evs generalizing w with
  | nil => exact h
  | cons e rest ih => exact ih (applyEv w e) (idleNotBusy_applyEv w e who h)

/-- C3: in every reachable state, a client whose session status is `idle`
has its busy flag false; and after every fatal outcome — local end, local
decline, a remote `declined`/`busy`/`ended` observed for the current call,
media-acquisition failure, reconnection exhaustion — the acting client's
session returns to `idle` and its busy flag is released, so no execution
leaves a user permanently marked busy. -/
theorem busy_flag_discipline (onlA onlB : Bool) (evs : List Ev)
    (w : World) (who : Who) (now : Nat) (c : CallRow)
    (hmatch : some c.id = (sessOf w who).currentCallId)
    (hterm : c.call_status = DbStatus.declined
      ∨ c.call_status = DbStatus.busy ∨ c.call_status = DbStatus.ended)
    (hbound : ¬ (sessOf w who).reconnectAttempts < maxReconnectAttempts) :
    (∀ who2 : Who,
      (sessOf (run (initWorld onlA onlB) evs) who2).callStatus
          = LocalStatus.idle →
        busyOf (run (initWorld onlA onlB) evs) who2 = false)
    ∧ ((sessOf (endCall w who now) who).callStatus = LocalStatus.idle
        ∧ busyOf (endCall w who now) who = false)
    ∧ ((sessOf (declineCall w who) who).callStatus = LocalStatus.idle
        ∧ busyOf (declineCall w who) who = false)
    ∧ ((sessOf (setupWebRTC w who false now) who).callStatus
          = LocalStatus.idle
        ∧ busyOf (setupWebRTC w who false now) who = false)
    ∧ ((sessOf (handleConnectionFailure w who true now) who).callStatus
          = LocalStatus.idle
        ∧ busyOf (handleConnectionFailure w who true now) who = false)
    ∧ ((sessOf (handleCallStatusUpdate w who c now) who).callStatus
          = LocalStatus.idle
        ∧ busyOf (handleCallStatusUpdate w who c now) who = false) := by
  refine ⟨?_, ?_, ?_, ?_, ?_, ?_⟩
  · intro who2
    apply idleNotBusy_run
    intro hs
    cases who2 <;> rfl
  · exact ⟨(endCall_sess_self w who now).1, (endCall_sess_self w who now).2.2.2⟩
  · unfold declineCall
    constructor
    · rw [sessOf_cleanup, if_pos rfl]
      rfl
    · rw [busyOf_cleanup, if_pos rfl]
  · unfold setupWebRTC
    rw [if_neg (by simp)]
    constructor
    · rw [sessOf_endCall, if_pos rfl]
      rfl
    · rw [busyOf_endCall, if_pos rfl]
  · unfold handleConnectionFailure
    rw [if_neg hbound]
    constructor
    · rw [sessOf_endCall, if_pos rfl]
      rfl
    · rw [busyOf_endCall, if_pos rfl]
  · unfold handleCallStatusUpdate
    rw [if_neg (by rw [hmatch]; exact fun hk => hk rfl)]
    rcases hterm with hcs | hcs | hcs <;> rw [hcs] <;> constructor <;>
      first
        | rw [sessOf_endCall, if_pos rfl]; rfl
        | rw [busyOf_endCall, if_pos rfl]

/-- Witness for C3 at a connected call with exhausted reconnection
budget. -/
theorem busy_flag_discipline_witness :
    ((some 0 = (sessOf (run (initWorld true true)
        [Ev.initiate Who.alice true 0, Ev.incoming Who.bob,
         Ev.accept Who.bob true 2, Ev.statusObs Who.alice 3,
         Ev.failed Who.alice true 4, Ev.failed Who.alice true 5,
         Ev.failed Who.alice true 6, Ev.failed Who.alice true 7,
         Ev.failed Who.alice true 8]) Who.alice).currentCallId)
    ∧ ¬ (sessOf (run (initWorld true true)
        [Ev.initiate Who.alice true 0, Ev.incoming Who.bob,
         Ev.accept Who.bob true 2, Ev.statusObs Who.alice 3,
         Ev.failed Who.alice true 4, Ev.failed Who.alice true 5,
         Ev.failed Who.alice true 6, Ev.failed Who.alice true 7,
         Ev.failed Who.alice true 8]) Who.alice).reconnectAttempts
        < maxReconnectAttempts)
    ∧ ((sessOf (endCall (run (initWorld true true)
        [Ev.initiate Who.alice true 0, Ev.incoming Who.bob,
         Ev.accept Who.bob true 2, Ev.statusObs Who.alice 3,
         Ev.failed Who.alice true 4, Ev.failed Who.alice true 5,
         Ev.failed Who.alice true 6, Ev.failed Who.alice true 7,
         Ev.failed Who.alice true 8]) Who.alice 9) Who.alice).callStatus
        = LocalStatus.idle
      ∧ busyOf (endCall (run (initWorld true true)
        [Ev.initiate Who.alice true 0, Ev.incoming Who.bob,
         Ev.accept Who.bob true 2, Ev.statusObs Who.alice 3,
         Ev.failed Who.alice true 4, Ev.failed Who.alice true 5,
         Ev.failed Who.alice true 6, Ev.failed Who.alice true 7,
         Ev.failed Who.alice true 8]) Who.alice 9) Who.alice = false) :=
  ⟨⟨by decide, by decide⟩,
    (busy_flag_discipline true true
      [Ev.initiate Who.alice true 0, Ev.incoming Who.bob,
       Ev.accept Who.bob true 2, Ev.statusObs Who.alice 3,
       Ev.failed Who.alice true 4, Ev.failed Who.alice true 5,
       Ev.failed Who.alice true 6, Ev.failed Who.alice true 7,
       Ev.failed Who.alice true 8]
      (run (initWorld true true)
        [Ev.initiate Who.alice true 0, Ev.incoming Who.bob,
         Ev.accept Who.bob true 2, Ev.statusObs Who.alice 3,
         Ev.failed Who.alice true 4, Ev.failed Who.alice true 5,
         Ev.failed Who.alice true 6, Ev.failed Who.alice true 7,
         Ev.failed Who.alice true 8]) Who.alice 9
      { id := 0, room_id := 0, caller_username := username Who.alice,
        receiver_username := username Who.bob,
        call_status := DbStatus.ended, duration := 0 }
      (by decide) (Or.inr (Or.inr rfl)) (by decide)).2.1⟩

/-! ## C1: the write trace of the `calls` row

`CallInv` ties the ghost write trace to the current row and to the session
state of both clients; it is preserved by every event and implies that the
trace is a path for `allowedEdge` starting at `calling`, with `connected`
never written. -/

theorem edgeChain_append_one (edge : DbStatus → DbStatus → Bool) :
    ∀ (l : List DbStatus) (s t : DbStatus),
      edgeChain edge l = true → l.getLast? = some s → edge s t = true →
      edgeChain edge (l ++ [t]) = true
  | [], s, t => by
      intro _ h2 _
      cases h2
  | [x], s, t => by
      intro _ h2 h3
      simp only [List.getLast?_singleton, Option.some.injEq] at h2
      subst h2
      simp [edgeChain, h3]
  | x :: y :: r, s, t => by
      intro h1 h2 h3
      rw [edgeChain] at h1
      simp only [Bool.and_eq_true] at h1
      rcases h1 with ⟨hxy, hchain⟩
      rw [List.getLast?_cons_cons] at h2
      have hrec := edgeChain_append_one edge (y :: r) s t hchain h2 h3
      rw [List.cons_append] at hrec
      rw [List.cons_append, List.cons_append, edgeChain, hxy, hrec]
      rfl

theorem writesOK_append (l : List DbStatus) (s t : DbStatus)
    (h : writesOK l = true) (hl : l.getLast? = some s)
    (he : allowedEdge s t = true) : writesOK (l ++ [t]) = true := by
  cases l with
  | nil => cases hl
  | cons x r =>
      rw [writesOK, pathFrom] at h
      simp only [Bool.and_eq_true] at h
      rcases h with ⟨hx, hchain⟩
      rw [List.cons_append, writesOK, pathFrom, hx]
      rw [← List.cons_append]
      rw [edgeChain_append_one allowedEdge (x :: r) s t hchain hl he]
      rfl

theorem getLast?_append_one {α : Type} (l : List α) (t : α) :
    (l ++ [t]).getLast? = some t := by
  rw [List.getLast?_append]
  rfl

/-- The coupled invariant of the `calls` row, its write trace and the two
sessions. -/
structure CallInv (w : World) : Prop where
  writes_ok : writesOK w.statusWrites = true
  no_conn : DbStatus.connected ∉ w.statusWrites
  none_empty : w.call = none → w.statusWrites = []
  last_link : ∀ c, w.call = some c →
      w.statusWrites.getLast? = some c.call_status
  id_lt : ∀ c, w.call = some c → c.id < w.callCtr
  sess_lt : ∀ who k, (sessOf w who).currentCallId = some k →
      k < w.callCtr
  undeliv_status : ∀ c, w.call = some c → w.incomingDelivered = false →
      c.call_status = DbStatus.calling ∨ c.call_status = DbStatus.ended
  undeliv_init : ∀ c who, w.call = some c → w.incomingDelivered = false →
      (sessOf w who).currentCallId = some c.id →
      (sessOf w who).isInitiator = true
  recv_uniq : ∀ c, w.call = some c →
      ¬ ((sessOf w Who.alice).currentCallId = some c.id
          ∧ (sessOf w Who.alice).isInitiator = false
          ∧ (sessOf w Who.bob).currentCallId = some c.id
          ∧ (sessOf w Who.bob).isInitiator = false)
  ringer_status : ∀ c who, w.call = some c →
      (sessOf w who).currentCallId = some c.id →
      (sessOf w who).callStatus = LocalStatus.ringing →
      (sessOf w who).isInitiator = false →
      c.call_status = DbStatus.ringing ∨ c.call_status = DbStatus.busy
        ∨ c.call_status = DbStatus.ended
  not_missed : ∀ c, w.call = some c →
      c.call_status ≠ DbStatus.missed ∧ c.call_status ≠ DbStatus.connected

/-- Transport of `CallInv` along a step that does not change any
invariant-relevant field. -/
theorem callInv_congr {w w2 : World}
    (hcall : w2.call = w.call) (hw : w2.statusWrites = w.statusWrites)
    (hctr : w2.callCtr = w.callCtr)
    (hdel : w2.incomingDelivered = w.incomingDelivered)
    (hsess : ∀ who, (sessOf w2 who).currentCallId
        = (sessOf w who).currentCallId
      ∧ (sessOf w2 who).isInitiator = (sessOf w who).isInitiator
      ∧ (sessOf w2 who).callStatus = (sessOf w who).callStatus)
    (h : CallInv w) : CallInv w2 := by
  constructor
  · rw [hw]
    exact h.writes_ok
  · rw [hw]
    exact h.no_conn
  · rw [hcall, hw]
    exact h.none_empty
  · rw [hcall, hw]
    exact h.last_link
  · rw [hcall, hctr]
    exact h.id_lt
  · intro who k hk
    rw [hctr]
    exact h.sess_lt who k (by rw [← (hsess who).1]; exact hk)
  · rw [hcall, hdel]
    exact h.undeliv_status
  · intro c who hc hd hk
    rw [(hsess who).2.1]
    exact h.undeliv_init c who (by rw [← hcall]; exact hc)
      (by rw [← hdel]; exact hd) (by rw [← (hsess who).1]; exact hk)
  · intro c hc
    rw [(hsess Who.alice).1, (hsess Who.alice).2.1, (hsess Who.bob).1,
      (hsess Who.bob).2.1]
    exact h.recv_uniq c (by rw [← hcall]; exact hc)
  · intro c who hc hk hr hi
    exact h.ringer_status c who (by rw [← hcall]; exact hc)
      (by rw [← (hsess who).1]; exact hk)
      (by rw [← (hsess who).2.2]; exact hr)
      (by rw [← (hsess who).2.1]; exact hi)
  · rw [hcall]
    exact h.not_missed

theorem ctr_setSess (w : World) (who : Who) (s : Session) :
    (setSess w who s).callCtr = w.callCtr := by
  cases who <;> rfl

theorem deliv_setSess (w : World) (who : Who) (s : Session) :
    (setSess w who s).incomingDelivered = w.incomingDelivered := by
  cases who <;> rfl

theorem ctr_updateUserStatus (w : World) (who : Who) (o bq : Bool) :
    (updateUserStatus w who o bq).callCtr = w.callCtr := by
  cases who <;> rfl

theorem deliv_updateUserStatus (w : World) (who : Who) (o bq : Bool) :
    (updateUserStatus w who o bq).incomingDelivered
      = w.incomingDelivered := by
  cases who <;> rfl

theorem ctr_sendSignal (w : World) (who : Who) (t : String) :
    (sendSignal w who t).callCtr = w.callCtr := by
  unfold sendSignal
  rcases (sessOf w who).currentCallId with _ | cid <;> rfl

theorem deliv_sendSignal (w : World) (who : Who) (t : String) :
    (sendSignal w who t).incomingDelivered = w.incomingDelivered := by
  unfold sendSignal
  rcases (sessOf w who).currentCallId with _ | cid <;> rfl

theorem writes_cleanup (w : World) (who : Who) :
    (cleanup w who).statusWrites = w.statusWrites := by
  cases who <;> rfl

theorem ctr_cleanup (w : World) (who : Who) :
    (cleanup w who).callCtr = w.callCtr := by
  cases who <;> rfl

theorem deliv_cleanup (w : World) (who : Who) :
    (cleanup w who).incomingDelivered = w.incomingDelivered := by
  cases who <;> rfl

theorem allowedEdge_to_ended (s : DbStatus) (h : s ≠ DbStatus.missed) :
    allowedEdge s DbStatus.ended = true := by
  cases s <;> first | rfl | exact absurd rfl h

theorem callInv_cleanup {w : World} (who : Who) (h : CallInv w) :
    CallInv (cleanup w who) := by
  constructor
  · rw [writes_cleanup]
    exact h.writes_ok
  · rw [writes_cleanup]
    exact h.no_conn
  · rw [call_cleanup, writes_cleanup]
    exact h.none_empty
  · rw [call_cleanup, writes_cleanup]
    exact h.last_link
  · rw [call_cleanup, ctr_cleanup]
    exact h.id_lt
  · intro who2 k hk
    rw [sessOf_cleanup] at hk
    rw [ctr_cleanup]
    by_cases hw : who2 = who
    · rw [if_pos hw] at hk
      cases hk
    · rw [if_neg hw] at hk
      exact h.sess_lt who2 k hk
  · rw [call_cleanup, deliv_cleanup]
    exact h.undeliv_status
  · intro c who2 hc hd hk
    rw [call_cleanup] at hc
    rw [deliv_cleanup] at hd
    rw [sessOf_cleanup] at hk
    rw [sessOf_cleanup]
    by_cases hw : who2 = who
    · rw [if_pos hw] at hk
      cases hk
    · rw [if_neg hw] at hk
      rw [if_neg hw]
      exact h.undeliv_init c who2 hc hd hk
  · intro c hc hk
    rw [call_cleanup] at hc
    rw [sessOf_cleanup, sessOf_cleanup] at hk
    cases who <;> simp [idleReset] at hk
  · intro c who2 hc hk hr hi
    rw [call_cleanup] at hc
    rw [sessOf_cleanup] at hk hr hi
    by_cases hw : who2 = who
    · rw [if_pos hw] at hk
      cases hk
    · rw [if_neg hw] at hk hr hi
      exact h.ringer_status c who2 hc hk hr hi
  · rw [call_cleanup]
    exact h.not_missed

theorem callInv_endCall {w : World} (who : Who) (now : Nat)
    (h : CallInv w) : CallInv (endCall w who now) := by
  unfold endCall
  rcases hid : (sessOf w who).currentCallId with _ | cid
  · exact callInv_cleanup who h
  · dsimp only
    rcases hc : w.call with _ | c
    · dsimp only
      apply callInv_cleanup who
      exact callInv_congr (w := w) rfl rfl rfl rfl
        (fun who2 => ⟨rfl, rfl, rfl⟩) h
    · dsimp only
      by_cases hcid : c.id = cid
      · rw [if_pos hcid]
        have hinv1 : ∀ d : Nat, CallInv { w with
            call := some { c with
                           call_status := DbStatus.ended,
                           duration := d },
            statusWrites := w.statusWrites ++ [DbStatus.ended] } := by
          intro d
          constructor
          · exact writesOK_append w.statusWrites c.call_status
              DbStatus.ended h.writes_ok (h.last_link c hc)
              (allowedEdge_to_ended c.call_status (h.not_missed c hc).1)
          · intro hmem
            rcases List.mem_append.mp hmem with hmem | hmem
            · exact h.no_conn hmem
            · simp at hmem
          · intro hx
            cases hx
          · intro c2 hc2
            cases hc2
            rw [getLast?_append_one]
          · intro c2 hc2
            cases hc2
            exact h.id_lt c hc
          · exact h.sess_lt
          · intro c2 hc2 hd
            cases hc2
            exact Or.inr rfl
          · intro c2 who2 hc2 hd hk
            cases hc2
            exact h.undeliv_init c who2 hc hd hk
          · intro c2 hc2
            cases hc2
            exact h.recv_uniq c hc
          · intro c2 who2 hc2 hk hr hi
            cases hc2
            exact Or.inr (Or.inr rfl)
          · intro c2 hc2
            cases hc2
            exact ⟨(fun hx => by cases hx), (fun hx => by cases hx)⟩
        apply callInv_cleanup who
        exact callInv_congr (w := { w with
            call := some { c with
                           call_status := DbStatus.ended,
                           duration := (match
                               (sessOf w who).callStartTime with
                             | some t => (now - t) / 1000
                             | none => 0 : Nat) },
            statusWrites := w.statusWrites ++ [DbStatus.ended] })
          rfl rfl rfl rfl (fun who2 => ⟨rfl, rfl, rfl⟩) (hinv1 _)
      · rw [if_neg hcid]
        apply callInv_cleanup who
        exact callInv_congr (w := w) rfl rfl rfl rfl
          (fun who2 => ⟨rfl, rfl, rfl⟩) h

theorem ctr_addNote (w : World) (who : Who) (m : String) :
    (addNote w who m).callCtr = w.callCtr := by
  unfold addNote
  exact ctr_setSess w who _

theorem deliv_addNote (w : World) (who : Who) (m : String) :
    (addNote w who m).incomingDelivered = w.incomingDelivered := by
  unfold addNote
  exact deliv_setSess w who _

theorem callInv_addNote {w : World} (who : Who) (m : String)
    (h : CallInv w) : CallInv (addNote w who m) := by
  apply callInv_congr (w := w) (call_addNote w who m)
    (writes_addNote w who m) (ctr_addNote w who m) (deliv_addNote w who m)
    ?_ h
  intro who2
  rw [sessOf_addNote]
  by_cases h2 : who2 = who
  · rw [if_pos h2, h2]
    exact ⟨rfl, rfl, rfl⟩
  · rw [if_neg h2]
    exact ⟨rfl, rfl, rfl⟩

theorem callInv_setupWebRTC {w : World} (who : Who) (mediaOk : Bool)
    (now : Nat) (h : CallInv w) :
    CallInv (setupWebRTC w who mediaOk now) := by
  unfold setupWebRTC
  by_cases hm : mediaOk
  · rw [if_pos hm]
    by_cases hi : (sessOf (setSess w who
        { sessOf w who with hasPC := true }) who).isInitiator
    · rw [if_pos hi]
      apply callInv_congr (w := w) ?_ ?_ ?_ ?_ ?_ h
      · rw [call_sendSignal, call_setSess]
      · rw [writes_sendSignal, writes_setSess]
      · rw [ctr_sendSignal, ctr_setSess]
      · rw [deliv_sendSignal, deliv_setSess]
      · intro who2
        rw [sessOf_sendSignal, sessOf_setSess]
        by_cases h2 : who2 = who
        · rw [if_pos h2, h2]
          exact ⟨rfl, rfl, rfl⟩
        · rw [if_neg h2]
          exact ⟨rfl, rfl, rfl⟩
    · rw [if_neg hi]
      apply callInv_congr (w := w) (call_setSess w who _)
        (writes_setSess w who _) (ctr_setSess w who _)
        (deliv_setSess w who _) ?_ h
      intro who2
      rw [sessOf_setSess]
      by_cases h2 : who2 = who
      · rw [if_pos h2, h2]
        exact ⟨rfl, rfl, rfl⟩
      · rw [if_neg h2]
        exact ⟨rfl, rfl, rfl⟩
  · rw [if_neg hm]
    exact callInv_endCall who now (callInv_addNote who msgMicFail h)

theorem callInv_initiateCall {w : World} (who : Who) (mediaOk : Bool)
    (now : Nat) (h : CallInv w) :
    CallInv (initiateCall w who mediaOk now) := by
  unfold initiateCall
  by_cases h1 : (sessOf w who).callStatus ≠ LocalStatus.idle
  · rw [if_pos h1]
    exact h
  · rw [if_neg h1]
    by_cases h2 : (checkFriendStatus w who).1 = false
    · rw [if_pos h2]
      exact callInv_addNote who msgOffline h
    · rw [if_neg h2]
      by_cases h3 : (checkFriendStatus w who).2 = true
      · rw [if_pos h3]
        exact callInv_addNote who msgBusy h
      · rw [if_neg h3]
        dsimp only
        apply callInv_setupWebRTC who mediaOk now
        constructor
        · cases who <;> rfl
        · cases who <;> simp [setSess]
        · cases who <;> intro hx <;> rw [call_setSess] at hx <;> cases hx
        · intro c2 hc2
          cases who <;> rw [call_setSess] at hc2 <;> cases hc2 <;> rfl
        · intro c2 hc2
          cases who <;> rw [call_setSess] at hc2 <;> cases hc2 <;>
            simp [setSess, ctr_updateUserStatus]
        · intro who2 k hk
          cases who <;> cases who2 <;>
            simp [sessOf, setSess, updateUserStatus] at hk ⊢
          · omega
          · have hlt := h.sess_lt Who.bob k hk
            omega
          · have hlt := h.sess_lt Who.alice k hk
            omega
          · omega
        · intro c2 hc2 hd
          cases who <;> rw [call_setSess] at hc2 <;> cases hc2 <;>
            exact Or.inl rfl
        · intro c2 who2 hc2 hd hk
          cases who <;> rw [call_setSess] at hc2 <;> cases hc2 <;>
            cases who2 <;>
            simp only [sessOf, setSess, updateUserStatus] at hk ⊢
          · exact absurd (h.sess_lt Who.bob w.callCtr hk) (lt_irrefl _)
          · exact absurd (h.sess_lt Who.alice w.callCtr hk) (lt_irrefl _)
        · intro c2 hc2
          cases who <;> rw [call_setSess] at hc2 <;> cases hc2 <;>
            intro hcontra
          · rcases hcontra with ⟨hk1, hi1, hk2, hi2⟩
            simp only [sessOf, setSess, updateUserStatus] at hi1
            cases hi1
          · rcases hcontra with ⟨hk1, hi1, hk2, hi2⟩
            simp only [sessOf, setSess, updateUserStatus] at hi2
            cases hi2
        · intro c2 who2 hc2 hk hr hi
          cases who <;> rw [call_setSess] at hc2 <;> cases hc2 <;>
            cases who2 <;>
            simp only [sessOf, setSess, updateUserStatus] at hk hr hi
          · cases hr
          · exact absurd (h.sess_lt Who.bob w.callCtr hk) (lt_irrefl _)
          · exact absurd (h.sess_lt Who.alice w.callCtr hk) (lt_irrefl _)
          · cases hr
        · intro c2 hc2
          cases who <;> rw [call_setSess] at hc2 <;> cases hc2 <;>
            exact ⟨(fun hx => by cases hx), (fun hx => by cases hx)⟩

theorem sessOf_mkWrite (X : World) (o : Option CallRow)
    (l : List DbStatus) (who2 : Who) :
    sessOf { X with call := o, statusWrites := l } who2 = sessOf X who2 := by
  cases who2 <;> rfl

theorem updateCallStatus_eq (w : World) (who : Who) (st : DbStatus)
    (c : CallRow) (hid : (sessOf w who).currentCallId = some c.id)
    (hc : w.call = some c) :
    updateCallStatus w who st =
      { w with call := some { c with call_status := st },
               statusWrites := w.statusWrites ++ [st] } := by
  unfold updateCallStatus
  rw [hid, hc]
  dsimp only
  rw [if_pos rfl]

/-- The common core of both branches of `handleIncomingCall`: the receiver
has adopted the incoming row's identifiers (with any local status `ls`),
the delivery flag is consumed, and the row is updated to `st` (`busy` or
`ringing`). -/
theorem callInv_incoming_write {w0 w1 : World} (who : Who) (c : CallRow)
    (st : DbStatus) (ls : LocalStatus)
    (hc : w0.call = some c) (hdeliv : w0.incomingDelivered = false)
    (hst : st = DbStatus.ringing ∨ st = DbStatus.busy)
    (hw1 : w1 = setSess { w0 with incomingDelivered := true }
      who { sessOf w0 who with
              callStatus := ls
              currentCallId := some c.id
              currentRoomId := some c.room_id
              isInitiator := false })
    (h : CallInv w0) : CallInv (updateCallStatus w1 who st) := by
  have hsf : ∀ who2, sessOf w1 who2
      = if who2 = who then { sessOf w0 who with
              callStatus := ls
              currentCallId := some c.id
              currentRoomId := some c.room_id
              isInitiator := false } else sessOf w0 who2 := by
    intro who2
    rw [hw1, sessOf_setSess]
    by_cases h2 : who2 = who
    · rw [if_pos h2, if_pos h2]
    · rw [if_neg h2, if_neg h2]
      cases who2 <;> rfl
  have hcall1 : w1.call = some c := by
    rw [hw1, call_setSess]
    exact hc
  have hwrites1 : w1.statusWrites = w0.statusWrites := by
    rw [hw1, writes_setSess]
  have hctr1 : w1.callCtr = w0.callCtr := by
    rw [hw1, ctr_setSess]
  have hdeliv1 : w1.incomingDelivered = true := by
    rw [hw1, deliv_setSess]
  rw [updateCallStatus_eq w1 who st c (by rw [hsf who, if_pos rfl])
    hcall1]
  have hedge : allowedEdge c.call_status st = true := by
    rcases h.undeliv_status c hc hdeliv with hcs | hcs <;>
      rcases hst with hst2 | hst2 <;> rw [hcs, hst2] <;> rfl
  constructor
  · show writesOK (w1.statusWrites ++ [st]) = true
    rw [hwrites1]
    exact writesOK_append w0.statusWrites c.call_status st h.writes_ok
      (h.last_link c hc) hedge
  · show DbStatus.connected ∉ w1.statusWrites ++ [st]
    rw [hwrites1]
    intro hmem
    rcases List.mem_append.mp hmem with hmem | hmem
    · exact h.no_conn hmem
    · rcases hst with hst2 | hst2 <;> rw [hst2] at hmem <;> simp at hmem
  · intro hx
    cases hx
  · intro c2 hc2
    cases hc2
    show (w1.statusWrites ++ [st]).getLast? = some st
    rw [getLast?_append_one]
  · intro c2 hc2
    cases hc2
    show c.id < w1.callCtr
    rw [hctr1]
    exact h.id_lt c hc
  · intro who2 k hk
    rw [sessOf_mkWrite, hsf who2] at hk
    show k < w1.callCtr
    rw [hctr1]
    by_cases h2 : who2 = who
    · rw [if_pos h2] at hk
      cases hk
      exact h.id_lt c hc
    · rw [if_neg h2] at hk
      exact h.sess_lt who2 k hk
  · intro c2 hc2 hd
    have hd2 : w1.incomingDelivered = false := hd
    rw [hdeliv1] at hd2
    cases hd2
  · intro c2 who2 hc2 hd hk
    have hd2 : w1.incomingDelivered = false := hd
    rw [hdeliv1] at hd2
    cases hd2
  · intro c2 hc2
    cases hc2
    intro hcontra
    rcases hcontra with ⟨hk1, hi1, hk2, hi2⟩
    rw [sessOf_mkWrite, hsf Who.alice] at hk1 hi1
    rw [sessOf_mkWrite, hsf Who.bob] at hk2 hi2
    cases who
    · rw [if_neg (by intro hx; cases hx)] at hk2 hi2
      exact absurd (h.undeliv_init c Who.bob hc hdeliv hk2)
        (by rw [hi2]; intro hx; cases hx)
    · rw [if_neg (by intro hx; cases hx)] at hk1 hi1
      exact absurd (h.undeliv_init c Who.alice hc hdeliv hk1)
        (by rw [hi1]; intro hx; cases hx)
  · intro c2 who2 hc2 hk hr hi
    cases hc2
    rcases hst with hst2 | hst2 <;> rw [hst2]
    · exact Or.inl rfl
    · exact Or.inr (Or.inl rfl)
  · intro c2 hc2
    cases hc2
    rcases hst with hst2 | hst2 <;> rw [hst2] <;>
      exact ⟨(fun hx => by cases hx), (fun hx => by cases hx)⟩

theorem callInv_handleIncomingCall {w : World} (who : Who) (c : CallRow)
    (hc : w.call = some c) (hdeliv : w.incomingDelivered = false)
    (h : CallInv w) : CallInv (handleIncomingCall w who c) := by
  unfold handleIncomingCall
  dsimp only
  split
  · exact callInv_incoming_write who c DbStatus.busy
      (sessOf w who).callStatus hc hdeliv (Or.inr rfl)
      (by cases who <;> rfl) h
  · exact callInv_incoming_write who c DbStatus.ringing
      LocalStatus.ringing hc hdeliv (Or.inl rfl)
      (by cases who <;> rfl) h

/-- Setting the local status of a client preserves the invariant whenever
the new status is not `ringing`, or the client is the initiator (the
caller's `ringing` is display state only). -/
theorem callInv_setStatus {w : World} (who : Who) (ls : LocalStatus)
    (hcond : ls ≠ LocalStatus.ringing
      ∨ (sessOf w who).isInitiator = true)
    (h : CallInv w) :
    CallInv (setSess w who { sessOf w who with callStatus := ls }) := by
  constructor
  · rw [writes_setSess]
    exact h.writes_ok
  · rw [writes_setSess]
    exact h.no_conn
  · rw [call_setSess, writes_setSess]
    exact h.none_empty
  · rw [call_setSess, writes_setSess]
    exact h.last_link
  · rw [call_setSess, ctr_setSess]
    exact h.id_lt
  · intro who2 k hk
    rw [sessOf_setSess] at hk
    rw [ctr_setSess]
    by_cases h2 : who2 = who
    · rw [if_pos h2] at hk
      exact h.sess_lt who k hk
    · rw [if_neg h2] at hk
      exact h.sess_lt who2 k hk
  · rw [call_setSess, deliv_setSess]
    exact h.undeliv_status
  · intro c who2 hc hd hk
    rw [call_setSess] at hc
    rw [deliv_setSess] at hd
    rw [sessOf_setSess] at hk
    rw [sessOf_setSess]
    by_cases h2 : who2 = who
    · rw [if_pos h2] at hk
      rw [if_pos h2]
      exact h.undeliv_init c who hc hd hk
    · rw [if_neg h2] at hk
      rw [if_neg h2]
      exact h.undeliv_init c who2 hc hd hk
  · intro c hc hcontra
    rw [call_setSess] at hc
    rcases hcontra with ⟨hk1, hi1, hk2, hi2⟩
    rw [sessOf_setSess] at hk1 hi1 hk2 hi2
    cases who
    · rw [if_pos rfl] at hk1 hi1
      rw [if_neg (by intro hx; cases hx)] at hk2 hi2
      exact h.recv_uniq c hc ⟨hk1, hi1, hk2, hi2⟩
    · rw [if_neg (by intro hx; cases hx)] at hk1 hi1
      rw [if_pos rfl] at hk2 hi2
      exact h.recv_uniq c hc ⟨hk1, hi1, hk2, hi2⟩
  · intro c who2 hc hk hr hi
    rw [call_setSess] at hc
    rw [sessOf_setSess] at hk hr hi
    by_cases h2 : who2 = who
    · rw [if_pos h2] at hk hr hi
      rcases hcond with hcond | hcond
      · exact absurd hr hcond
      · have hif : (sessOf w who).isInitiator = false := hi
        rw [hcond] at hif
        cases hif
    · rw [if_neg h2] at hk hr hi
      exact h.ringer_status c who2 hc hk hr hi
  · rw [call_setSess]
    exact h.not_missed

/-- `acceptCall`'s write of `accepted` together with the local move to
`accepted`, for a ringing non-initiator. -/
theorem callInv_accept_core {w : World} (who : Who)
    (hring : (sessOf w who).callStatus = LocalStatus.ringing)
    (hinit : (sessOf w who).isInitiator = false)
    (h : CallInv w) :
    CallInv (setSess (updateCallStatus w who DbStatus.accepted) who
      { sessOf (updateCallStatus w who DbStatus.accepted) who with
          callStatus := LocalStatus.accepted }) := by
  unfold updateCallStatus
  rcases hid : (sessOf w who).currentCallId with _ | cid
  · dsimp only
    exact callInv_setStatus who LocalStatus.accepted
      (Or.inl (by intro hx; cases hx)) h
  · rcases hc : w.call with _ | c
    · dsimp only
      exact callInv_setStatus who LocalStatus.accepted
        (Or.inl (by intro hx; cases hx)) h
    · dsimp only
      by_cases hcid : c.id = cid
      · subst hcid
        rw [if_pos rfl]
        have hdel : w.incomingDelivered = true := by
          cases hx : w.incomingDelivered
          · have := h.undeliv_init c who hc hx hid
            rw [hinit] at this
            cases this
          · rfl
        have hedge : allowedEdge c.call_status DbStatus.accepted = true := by
          rcases h.ringer_status c who hc hid hring hinit with hcs | hcs | hcs <;>
            rw [hcs] <;> rfl
        constructor
        · rw [writes_setSess]
          exact writesOK_append w.statusWrites c.call_status
            DbStatus.accepted h.writes_ok (h.last_link c hc) hedge
        · rw [writes_setSess]
          intro hmem
          rcases List.mem_append.mp hmem with hmem | hmem
          · exact h.no_conn hmem
          · simp at hmem
        · intro hx
          rw [call_setSess] at hx
          cases hx
        · intro c2 hc2
          rw [call_setSess] at hc2
          cases hc2
          rw [writes_setSess]
          exact getLast?_append_one w.statusWrites DbStatus.accepted
        · intro c2 hc2
          rw [call_setSess] at hc2
          cases hc2
          rw [ctr_setSess]
          exact h.id_lt c hc
        · intro who2 k hk
          rw [sessOf_setSess] at hk
          rw [ctr_setSess]
          by_cases h2 : who2 = who
          · rw [if_pos h2] at hk
            have hk2 : (sessOf w who).currentCallId = some k := by
              rw [← sessOf_mkWrite w (some { c with
                call_status := DbStatus.accepted })
                (w.statusWrites ++ [DbStatus.accepted]) who]
              exact hk
            exact h.sess_lt who k hk2
          · rw [if_neg h2, sessOf_mkWrite] at hk
            exact h.sess_lt who2 k hk
        · intro c2 hc2 hd
          rw [deliv_setSess] at hd
          have hd2 : w.incomingDelivered = false := hd
          rw [hdel] at hd2
          cases hd2
        · intro c2 who2 hc2 hd hk
          rw [deliv_setSess] at hd
          have hd2 : w.incomingDelivered = false := hd
          rw [hdel] at hd2
          cases hd2
        · intro c2 hc2 hcontra
          rw [call_setSess] at hc2
          cases hc2
          rcases hcontra with ⟨hk1, hi1, hk2, hi2⟩
          rw [sessOf_setSess] at hk1 hi1 hk2 hi2
          cases who
          · rw [if_pos rfl] at hk1 hi1
            rw [if_neg (by intro hx; cases hx), sessOf_mkWrite] at hk2 hi2
            have hk1b : (sessOf w Who.alice).currentCallId
                = some c.id := by
              rw [← sessOf_mkWrite w (some { c with
                call_status := DbStatus.accepted })
                (w.statusWrites ++ [DbStatus.accepted]) Who.alice]
              exact hk1
            exact h.recv_uniq c hc ⟨hk1b, hi1, hk2, hi2⟩
          · rw [if_pos rfl] at hk2 hi2
            rw [if_neg (by intro hx; cases hx), sessOf_mkWrite] at hk1 hi1
            have hk2b : (sessOf w Who.bob).currentCallId
                = some c.id := by
              rw [← sessOf_mkWrite w (some { c with
                call_status := DbStatus.accepted })
                (w.statusWrites ++ [DbStatus.accepted]) Who.bob]
              exact hk2
            exact h.recv_uniq c hc ⟨hk1, hi1, hk2b, hi2⟩
        · intro c2 who2 hc2 hk hr hi
          rw [call_setSess] at hc2
          cases hc2
          rw [sessOf_setSess] at hk hr hi
          by_cases h2 : who2 = who
          · rw [if_pos h2] at hr
            cases hr
          · rw [if_neg h2, sessOf_mkWrite] at hk hr hi
            cases who <;> cases who2
            · exact absurd rfl h2
            · exact absurd (h.recv_uniq c hc ⟨hid, hinit, hk, hi⟩) not_false
            · exact absurd (h.recv_uniq c hc ⟨hk, hi, hid, hinit⟩) not_false
            · exact absurd rfl h2
        · intro c2 hc2
          rw [call_setSess] at hc2
          cases hc2
          exact ⟨(fun hx => by cases hx), (fun hx => by cases hx)⟩
      · rw [if_neg hcid]
        exact callInv_setStatus who LocalStatus.accepted
          (Or.inl (by intro hx; cases hx)) h

/-- `declineCall` (write `declined`, then `cleanup`), for a ringing
non-initiator. -/
theorem callInv_decline_core {w : World} (who : Who)
    (hring : (sessOf w who).callStatus = LocalStatus.ringing)
    (hinit : (sessOf w who).isInitiator = false)
    (h : CallInv w) : CallInv (declineCall w who) := by
  unfold declineCall updateCallStatus
  rcases hid : (sessOf w who).currentCallId with _ | cid
  · dsimp only
    exact callInv_cleanup who h
  · rcases hc : w.call with _ | c
    · dsimp only
      exact callInv_cleanup who h
    · dsimp only
      by_cases hcid : c.id = cid
      · subst hcid
        rw [if_pos rfl]
        have hdel : w.incomingDelivered = true := by
          cases hx : w.incomingDelivered
          · have := h.undeliv_init c who hc hx hid
            rw [hinit] at this
            cases this
          · rfl
        have hedge : allowedEdge c.call_status DbStatus.declined = true := by
          rcases h.ringer_status c who hc hid hring hinit with hcs | hcs | hcs <;>
            rw [hcs] <;> rfl
        constructor
        · rw [writes_cleanup]
          exact writesOK_append w.statusWrites c.call_status
            DbStatus.declined h.writes_ok (h.last_link c hc) hedge
        · rw [writes_cleanup]
          intro hmem
          rcases List.mem_append.mp hmem with hmem | hmem
          · exact h.no_conn hmem
          · simp at hmem
        · intro hx
          rw [call_cleanup] at hx
          cases hx
        · intro c2 hc2
          rw [call_cleanup] at hc2
          cases hc2
          rw [writes_cleanup]
          exact getLast?_append_one w.statusWrites DbStatus.declined
        · intro c2 hc2
          rw [call_cleanup] at hc2
          cases hc2
          rw [ctr_cleanup]
          exact h.id_lt c hc
        · intro who2 k hk
          rw [sessOf_cleanup] at hk
          rw [ctr_cleanup]
          by_cases h2 : who2 = who
          · rw [if_pos h2] at hk
            cases hk
          · rw [if_neg h2, sessOf_mkWrite] at hk
            exact h.sess_lt who2 k hk
        · intro c2 hc2 hd
          rw [deliv_cleanup] at hd
          have hd2 : w.incomingDelivered = false := hd
          rw [hdel] at hd2
          cases hd2
        · intro c2 who2 hc2 hd hk
          rw [deliv_cleanup] at hd
          have hd2 : w.incomingDelivered = false := hd
          rw [hdel] at hd2
          cases hd2
        · intro c2 hc2 hcontra
          rw [call_cleanup] at hc2
          cases hc2
          rcases hcontra with ⟨hk1, hi1, hk2, hi2⟩
          rw [sessOf_cleanup] at hk1 hi1 hk2 hi2
          cases who
          · rw [if_pos rfl] at hk1
            cases hk1
          · rw [if_pos rfl] at hk2
            cases hk2
        · intro c2 who2 hc2 hk hr hi
          rw [call_cleanup] at hc2
          cases hc2
          rw [sessOf_cleanup] at hk hr hi
          by_cases h2 : who2 = who
          · rw [if_pos h2] at hk
            cases hk
          · rw [if_neg h2, sessOf_mkWrite] at hk hr hi
            cases who <;> cases who2
            · exact absurd rfl h2
            · exact absurd (h.recv_uniq c hc ⟨hid, hinit, hk, hi⟩)
                not_false
            · exact absurd (h.recv_uniq c hc ⟨hk, hi, hid, hinit⟩)
                not_false
            · exact absurd rfl h2
        · intro c2 hc2
          rw [call_cleanup] at hc2
          cases hc2
          exact ⟨(fun hx => by cases hx), (fun hx => by cases hx)⟩
      · rw [if_neg hcid]
        exact callInv_cleanup who h

theorem callInv_updateUserStatus {w : World} (who : Who) (o bq : Bool)
    (h : CallInv w) : CallInv (updateUserStatus w who o bq) := by
  apply callInv_congr (w := w) (call_updateUserStatus w who o bq)
    (writes_updateUserStatus w who o bq) (ctr_updateUserStatus w who o bq)
    (deliv_updateUserStatus w who o bq) ?_ h
  intro who2
  rw [sessOf_updateUserStatus]
  exact ⟨rfl, rfl, rfl⟩

theorem callInv_acceptCall {w : World} (who : Who) (mediaOk : Bool)
    (now : Nat)
    (hring : (sessOf w who).callStatus = LocalStatus.ringing)
    (hinit : (sessOf w who).isInitiator = false)
    (h : CallInv w) : CallInv (acceptCall w who mediaOk now) := by
  unfold acceptCall
  dsimp only
  apply callInv_setupWebRTC who mediaOk now
  exact callInv_accept_core who
    (by rw [sessOf_updateUserStatus]; exact hring)
    (by rw [sessOf_updateUserStatus]; exact hinit)
    (callInv_updateUserStatus who true true h)

theorem callInv_declineCall {w : World} (who : Who)
    (hring : (sessOf w who).callStatus = LocalStatus.ringing)
    (hinit : (sessOf w who).isInitiator = false)
    (h : CallInv w) : CallInv (declineCall w who) :=
  callInv_decline_core who hring hinit h

theorem callInv_handleCallStatusUpdate {w : World} (who : Who)
    (c : CallRow) (now : Nat) (h : CallInv w) :
    CallInv (handleCallStatusUpdate w who c now) := by
  unfold handleCallStatusUpdate
  by_cases hm : some c.id ≠ (sessOf w who).currentCallId
  · rw [if_pos hm]
    exact h
  · rw [if_neg hm]
    cases c.call_status
    · exact h
    · by_cases hi : (sessOf w who).isInitiator
      · rw [if_pos hi]
        exact callInv_setStatus who LocalStatus.ringing (Or.inr hi) h
      · rw [if_neg hi]
        exact h
    · exact callInv_setStatus who LocalStatus.accepted
        (Or.inl (by intro hx; cases hx)) h
    · exact h
    · exact callInv_endCall who now (callInv_addNote who msgDeclined h)
    · exact callInv_endCall who now (callInv_addNote who msgBusy h)
    · exact h
    · exact callInv_endCall who now h

theorem callInv_handleConnectionFailure {w : World} (who : Who)
    (mediaOk : Bool) (now : Nat) (h : CallInv w) :
    CallInv (handleConnectionFailure w who mediaOk now) := by
  unfold handleConnectionFailure
  by_cases hb : (sessOf w who).reconnectAttempts < maxReconnectAttempts
  · rw [if_pos hb]
    show CallInv (setupWebRTC (setSess w who
      { sessOf w who with
          reconnectAttempts := (sessOf w who).reconnectAttempts + 1 })
      who mediaOk now)
    apply callInv_setupWebRTC who mediaOk now
    apply callInv_congr (w := w) (call_setSess w who _)
      (writes_setSess w who _) (ctr_setSess w who _)
      (deliv_setSess w who _) ?_ h
    intro who2
    rw [sessOf_setSess]
    by_cases h2 : who2 = who
    · rw [if_pos h2, h2]
      exact ⟨rfl, rfl, rfl⟩
    · rw [if_neg h2]
      exact ⟨rfl, rfl, rfl⟩
  · rw [if_neg hb]
    exact callInv_endCall who now (callInv_addNote who msgConnFail h)

theorem callInv_handleSignal {w : World} (who : Who) (sg : SignalRow)
    (h : CallInv w) : CallInv (handleSignal w who sg) := by
  unfold handleSignal
  by_cases h1 : some sg.call_id ≠ (sessOf w who).currentCallId
  · rw [if_pos h1]
    exact h
  · rw [if_neg h1]
    by_cases h2 : sg.signal_type = offerType
        && (sessOf w who).isInitiator = false && (sessOf w who).hasPC
    · rw [if_pos h2]
      apply callInv_congr (w := w) (call_sendSignal w who _)
        (writes_sendSignal w who _) (ctr_sendSignal w who _)
        (deliv_sendSignal w who _) ?_ h
      intro who2
      rw [sessOf_sendSignal]
      exact ⟨rfl, rfl, rfl⟩
    · rw [if_neg h2]
      exact h

theorem callInv_onCallConnected {w : World} (who : Who) (now : Nat)
    (h : CallInv w) : CallInv (onCallConnected w who now) := by
  apply callInv_congr (w := w) ?_ ?_ ?_ ?_ ?_ h
  · unfold onCallConnected
    dsimp only
    split <;> cases who <;> rfl
  · unfold onCallConnected
    dsimp only
    split <;> cases who <;> rfl
  · unfold onCallConnected
    dsimp only
    split <;> cases who <;> rfl
  · unfold onCallConnected
    dsimp only
    split <;> cases who <;> rfl
  · intro who2
    unfold onCallConnected
    dsimp only
    refine ⟨?_, ?_, ?_⟩ <;>
      (split <;> cases who <;> cases who2 <;> simp [sessOf, setSess])

theorem callInv_heartbeat {w : World} (who : Who) (h : CallInv w) :
    CallInv (heartbeat w who) := by
  unfold heartbeat
  exact callInv_updateUserStatus who true _ h

/-- Every event preserves the call-row invariant. -/
theorem callInv_applyEv (w : World) (e : Ev) (h : CallInv w) :
    CallInv (applyEv w e) := by
  cases e with
  | initiate who mediaOk now => exact callInv_initiateCall who mediaOk now h
  | incoming who =>
      simp only [applyEv]
      rcases hcall : w.call with _ | c
      · exact h
      · dsimp only
        split
      
        · next hcond =>
            simp only [Bool.and_eq_true, decide_eq_true_eq] at hcond
            exact callInv_handleIncomingCall who c hcall hcond.2 h
        · next => exact h
  | statusObs who now =>
      simp only [applyEv]
      rcases hcall : w.call with _ | c
      · exact h
      · exact callInv_handleCallStatusUpdate who c now h
  | accept who mediaOk now =>
      simp only [applyEv]
      split
      · next hcond =>
          simp only [Bool.and_eq_true, decide_eq_true_eq] at hcond
          exact callInv_acceptCall who mediaOk now hcond.1 hcond.2 h
      · next => exact h
  | decline who =>
      simp only [applyEv]
      split
      · next hcond =>
          simp only [Bool.and_eq_true, decide_eq_true_eq] at hcond
          exact callInv_declineCall who hcond.1 hcond.2 h
      · next => exact h
  | endBtn who now => exact callInv_endCall who now h
  | connected who now =>
      simp only [applyEv]
      split
      · exact callInv_onCallConnected who now h
      · exact h
  | failed who mediaOk now =>
      simp only [applyEv]
      split
      · exact callInv_handleConnectionFailure who mediaOk now h
      · exact h
  | disconnected who mediaOk now =>
      simp only [applyEv]
      split
      · unfold handleDisconnection
        split
        · exact callInv_handleConnectionFailure who mediaOk now h
        · exact h
      · exact h
  | signalObs who i =>
      simp only [applyEv]
      split
      · split
        · exact callInv_handleSignal who _ h
        · exact h
      · exact h
  | tick who => exact callInv_heartbeat who h
  | unload who => exact callInv_cleanup who h

theorem callInv_run (w : World) (evs : List Ev) (h : CallInv w) :
    CallInv (run w evs) := by
  induction evs generalizing w with
  | nil => exact h
  | cons e rest ih => exact ih (applyEv w e) (callInv_applyEv w e h)

theorem callInv_initWorld (onlA onlB : Bool) :
    CallInv (initWorld onlA onlB) := by
  constructor
  · rfl
  · simp [initWorld]
  · intro _
    rfl
  · intro c hc
    cases hc
  · intro c hc
    cases hc
  · intro who k hk
    cases who <;> cases hk
  · intro c hc
    cases hc
  · intro c who hc hd hk
    cases hc
  · intro c hc
    cases hc
  · intro c who hc hk hr hi
    cases hc
  · intro c hc
    cases hc

/-- C1 (amended): in every reachable execution, the sequence of status
values written to the `calls` row starts at `calling` and follows
`allowedEdge`: the transition table of the specification extended by the
write races the code realizes — the end-call handler may overwrite any
status, including a terminal one, with `ended`, and a handler acting on a
row whose status the peer meanwhile overwrote (a delayed or lost realtime
notification) may write `ringing`/`busy`/`accepted`/`declined` after
`ended` and `accepted`/`declined` after `busy`.  In particular the claim's
headline holds: `connected` is never written at all, so no call ever
moves from `calling` directly to `connected`. -/
theorem call_status_write_discipline (onlA onlB : Bool) (evs : List Ev) :
    writesOK (run (initWorld onlA onlB) evs).statusWrites = true
    ∧ DbStatus.connected ∉ (run (initWorld onlA onlB) evs).statusWrites :=
  ⟨(callInv_run (initWorld onlA onlB) evs
      (callInv_initWorld onlA onlB)).writes_ok,
    (callInv_run (initWorld onlA onlB) evs
      (callInv_initWorld onlA onlB)).no_conn⟩

/-- Counterexample to C1 as stated: a declined call whose caller then
observes the decline runs `endCall`, overwriting the terminal `declined`
with `ended` — the written sequence `calling, ringing, declined, ended`
is not a path through the specification's transition table. -/
theorem c1_spec_path_violated :
    (run (initWorld true true)
      [Ev.initiate Who.alice true 0, Ev.incoming Who.bob,
       Ev.decline Who.bob, Ev.statusObs Who.alice 5]).statusWrites
      = [DbStatus.calling, DbStatus.ringing, DbStatus.declined,
         DbStatus.ended]
    ∧ specWritesOK (run (initWorld true true)
      [Ev.initiate Who.alice true 0, Ev.incoming Who.bob,
       Ev.decline Who.bob, Ev.statusObs Who.alice 5]).statusWrites
      = false := by
  exact ⟨by decide, by decide⟩
